import Mathlib

/-!
# Azure DevOps PAT provider: lifecycle and client

A shallow embedding of `client.go` (the four PAT operations of `AzureDevOpsClient`) and of
`resource_azure_devops_pat.go` (the Create / Read / Update / Delete callbacks).

* Instants are integers counting nanoseconds; `time.Duration` is a 64-bit signed integer of
  nanoseconds, so the arithmetic that builds a duration wraps (`wrapInt64`).
* The Go standard library and the Terraform SDK are outside the repository.  What the code asks
  of them is a field of `Env` (RFC3339 parsing and formatting, JSON decoding, request
  construction) or of `ResourceData` (`HasChange`).
* The remote service and the wall clock are scripted in `World`: every `httpClient.Do` takes the
  next scripted answer, every `time.Now()` takes the next scripted reading.  `World` also records
  the client methods entered, the requests put on the wire, the lines printed and the time slept.
* The callbacks are handed the client itself, so the cast of `meta` to `*AzureDevOpsClient`
  that opens each of them succeeds.
* `Create`, `Read` and `Update` call each other; the embedding gives them a call budget and
  stops with `Run.cutOff`, keeping the world reached, when the budget is used up.
-/

namespace AzureDevOpsPAT

/-! ## Data model -/

/-- The Go struct `PATToken` of `client.go`. -/
structure PATToken where
  DisplayName : String
  ValidTo : String
  Scope : String
  TargetAccounts : List String
  ValidFrom : String
  AuthorizationID : String
  Token : String
deriving DecidableEq, Repr

/-- The payload and target of a request built by the client; the URL of every request is the
token collection of the organisation, the DELETE adds the `authorizationId` query parameter. -/
inductive HttpRequest where
  | post (displayName scope validTo : String) (allOrgs : Bool)
  | put (authorizationId displayName scope validTo : String) (allOrgs : Bool)
  | delete (authorizationId : String)
  | get
deriving DecidableEq, Repr

/-- What `httpClient.Do` hands back on success: the status code and what `io.ReadAll` makes of
the body (the bytes read and the error it reports, if any). -/
structure HttpResponse where
  StatusCode : Int
  body : String
  readErr : Option String
deriving DecidableEq, Repr

/-- Result of `httpClient.Do`: a transport failure or a response. -/
inductive HttpResult where
  | transportError (msg : String)
  | response (resp : HttpResponse)
deriving DecidableEq, Repr

/-- A client method entered, with its arguments. -/
inductive ApiCall where
  | createPAT (displayName scope : String) (expirationDays : Int) (allOrganizations : Bool)
      (project : String)
  | updatePAT (authorizationID displayName scope : String) (expirationDays : Int)
      (allOrganizations : Bool)
  | revokePAT (authorizationID : String)
  | getPAT (authorizationID : String)
deriving DecidableEq, Repr

/-- The Go `error` values the client returns, one constructor per place that makes one. -/
inductive GoError where
  /-- An error of `net/http` or `io` returned as it is. -/
  | lib (msg : String)
  /-- Message "failed to create request: %v" -/
  | createRequest (msg : String)
  /-- Message "failed to execute request: %v" -/
  | executeRequest (msg : String)
  /-- Message "failed to update PAT: status code %d, response: %s" -/
  | updateStatus (code : Int) (body : String)
  /-- Message "failed to unmarshal response: %v" -/
  | unmarshalResponse (msg : String)
  /-- Message "API returned non-200 status: %d" -/
  | createStatus (code : Int)
  /-- Message "failed to unmarshal PAT response: %v" -/
  | unmarshalPAT (msg : String)
  /-- Message "API returned status %d: check if DELETE is supported for this endpoint" -/
  | deleteUnsupported (code : Int)
  /-- Message "unauthorized: check token or authentication method" -/
  | unauthorized
  /-- Message "unexpected status code %d: %s" -/
  | unexpectedStatus (code : Int) (body : String)
  /-- Message "failed to retrieve PAT: status code %d" -/
  | retrieveStatus (code : Int)
  /-- Message "PAT with authorization ID %s not found after retries" -/
  | notFoundAfterRetries (authorizationID : String)
deriving DecidableEq, Repr

/-- The method `Error()` of the error values: the text of each message. -/
def GoError.Error : GoError → String
  | .lib msg => msg
  | .createRequest msg => "failed to create request: " ++ msg
  | .executeRequest msg => "failed to execute request: " ++ msg
  | .updateStatus code body =>
      "failed to update PAT: status code " ++ toString code ++ ", response: " ++ body
  | .unmarshalResponse msg => "failed to unmarshal response: " ++ msg
  | .createStatus code => "API returned non-200 status: " ++ toString code
  | .unmarshalPAT msg => "failed to unmarshal PAT response: " ++ msg
  | .deleteUnsupported code =>
      "API returned status " ++ toString code ++ ": check if DELETE is supported for this endpoint"
  | .unauthorized => "unauthorized: check token or authentication method"
  | .unexpectedStatus code body => "unexpected status code " ++ toString code ++ ": " ++ body
  | .retrieveStatus code => "failed to retrieve PAT: status code " ++ toString code
  | .notFoundAfterRetries authorizationID =>
      "PAT with authorization ID " ++ authorizationID ++ " not found after retries"

/-- Whether `pat` starts the list `s`. -/
def startsWith : List Char → List Char → Bool
  | [], _ => true
  | _ :: _, [] => false
  | p :: ps, c :: cs => p == c && startsWith ps cs

/-- Whether `pat` occurs in the list `s`. -/
def occursIn (pat : List Char) : List Char → Bool
  | [] => startsWith pat []
  | c :: cs => startsWith pat (c :: cs) || occursIn pat cs

/-- Go `strings.Contains`. -/
def stringsContains (s substr : String) : Bool :=
  occursIn substr.data s.data

/-- The error diagnostics the callbacks return. -/
inductive Diag where
  /-- Create: "renew_before_days (%d) cannot be greater than expiration_days (%d)" -/
  | renewExceedsExpiration (renewBeforeDays expirationDays : Int)
  /-- Read: "Invalid configuration: expiration_days (%d) must be greater than
  renew_before_days (%d) to prevent renewal loop" -/
  | invalidConfiguration (expirationDays renewBeforeDays : Int)
  /-- Message "failed to parse valid_to date: %v" -/
  | parseValidTo (msg : String)
  /-- The diagnostics `diag.FromErr(err)`. -/
  | fromErr (err : GoError)
deriving DecidableEq, Repr

/-- The `schema.ResourceData` of the resource: its identity, the attributes of the schema, and
the keys for which `HasChange` answers true.  `HasChange` compares the prior state with the
planned one, so `Set` does not alter it. -/
structure ResourceData where
  id : String
  display_name : String
  scope : String
  authorization_id : String
  token : String
  valid_to : String
  renew_before_days : Int
  expiration_days : Int
  all_organization : Bool
  project : String
  changed : List String
deriving DecidableEq, Repr

/-- The SDK method `d.HasChange(key)`. -/
def ResourceData.HasChange (d : ResourceData) (key : String) : Bool :=
  d.changed.contains key

/-- The scripted surroundings of a run and what the run has done so far. -/
structure World where
  /-- The reading `time.Now()` gives once `upcoming` is used up -/
  now : Int
  /-- The readings the next calls of `time.Now()` give, in order -/
  upcoming : List Int
  /-- The answers of the remote service to the next requests, in order -/
  script : List HttpResult
  /-- The requests put on the wire, oldest first -/
  sent : List HttpRequest
  /-- The client methods entered, oldest first -/
  calls : List ApiCall
  /-- The lines printed, oldest first -/
  stdout : List String
  /-- The total time spent in `time.Sleep`, in nanoseconds -/
  slept : Int
deriving DecidableEq, Repr

/-- The parts of the Go standard library and of the client configuration the code relies on. -/
structure Env where
  /-- Go `time.Parse(time.RFC3339, s)`: the instant in nanoseconds, or the error text. -/
  parseRFC3339 : String → Except String Int
  /-- Go `t.AddDate(0, 0, days).Format(time.RFC3339)`. -/
  formatAddDays : Int → Int → String
  /-- The error of `http.NewRequest` for the URL of this request, if it has one -/
  newRequestErr : HttpRequest → Option String
  /-- Go `json.Unmarshal` of a body into the struct with the field `PATToken`. -/
  unmarshalToken : String → Except String PATToken
  /-- Go `json.Unmarshal` of a body into the struct with the fields `ContinuationToken` and
  `PATTokens`. -/
  unmarshalList : String → Except String (List PATToken)

/-- What a callback leaves behind: its diagnostics (`none` is Go `nil`), the resource data and
the world. -/
structure Outcome where
  diags : Option Diag
  d : ResourceData
  w : World
deriving DecidableEq, Repr

/-- A run of a callback under a call budget: it returns, or the budget is used up and the run
is cut off in the world it has reached. -/
inductive Run where
  | done (out : Outcome)
  | cutOff (w : World)
deriving DecidableEq, Repr

/-- What a run returns, if it returns. -/
def Run.result : Run → Option Outcome
  | .done out => some out
  | .cutOff _ => none

/-- The world a run ends in. -/
def Run.world : Run → World
  | .done out => out.w
  | .cutOff w => w

/-! ## Primitive effects -/

/-- One call of `time.Now()`. -/
def timeNow (w : World) : Int × World :=
  match w.upcoming with
  | [] => (w.now, w)
  | t :: rest => (t, { w with now := t, upcoming := rest })

/-- One call of `fmt.Println` (or `fmt.Printf` of a whole line). -/
def println (line : String) (w : World) : World :=
  { w with stdout := w.stdout ++ [line] }

/-- One call of `time.Sleep`. -/
def timeSleep (duration : Int) (w : World) : World :=
  { w with slept := w.slept + duration }

/-- Entering a client method. -/
def enter (c : ApiCall) (w : World) : World :=
  { w with calls := w.calls ++ [c] }

/-- One call of `httpClient.Do`: the request goes on the wire and the next scripted answer comes
back; a remote that has stopped answering is a transport failure. -/
def httpDo (req : HttpRequest) (w : World) : HttpResult × World :=
  match w.script with
  | [] => (.transportError "no response", { w with sent := w.sent ++ [req] })
  | r :: rest => (r, { w with script := rest, sent := w.sent ++ [req] })

/-- Conversion to a 64-bit signed integer, two's complement. -/
def wrapInt64 (x : Int) : Int :=
  (x + 2 ^ 63) % 2 ^ 64 - 2 ^ 63

/-- Go `time.Hour`, in nanoseconds. -/
def timeHour : Int := 3600000000000

/-- Go `time.Second`, in nanoseconds. -/
def timeSecond : Int := 1000000000

/-- The expression `-time.Duration(renewBeforeDays) * 24 * time.Hour`, evaluated left to right in
64-bit arithmetic. -/
def renewalOffset (renewBeforeDays : Int) : Int :=
  wrapInt64 (wrapInt64 (wrapInt64 (-(wrapInt64 renewBeforeDays)) * 24) * timeHour)

/-- The expression `validTo.Add(-time.Duration(renewBeforeDays) * 24 * time.Hour)`.  `Add` is
exact for the instants RFC3339 can denote. -/
def renewalThreshold (validTo renewBeforeDays : Int) : Int :=
  validTo + renewalOffset renewBeforeDays

/-! ## The client (`client.go`) -/

/-- The method `AzureDevOpsClient.UpdatePAT`.  `json.Marshal` cannot fail on this payload; the
error of `io.ReadAll` is discarded by the code. -/
def UpdatePAT (env : Env) (authorizationID displayName scope : String) (expirationDays : Int)
    (allOrganizations : Bool) (w : World) : Except GoError PATToken × World :=
  let w0 := enter (.updatePAT authorizationID displayName scope expirationDays allOrganizations) w
  let t := timeNow w0
  let req := HttpRequest.put authorizationID displayName scope
    (env.formatAddDays t.1 expirationDays) allOrganizations
  match env.newRequestErr req with
  | some msg => (.error (.createRequest msg), t.2)
  | none =>
    let r := httpDo req t.2
    match r.1 with
    | .transportError msg => (.error (.executeRequest msg), r.2)
    | .response resp =>
      if resp.StatusCode ≠ 200 then
        (.error (.updateStatus resp.StatusCode resp.body), r.2)
      else
        match env.unmarshalToken resp.body with
        | .error msg => (.error (.unmarshalResponse msg), r.2)
        | .ok pat => (.ok pat, r.2)

/-- The method `AzureDevOpsClient.CreatePAT`.  The argument `project` is not used. -/
def CreatePAT (env : Env) (displayName scope : String) (expirationDays : Int)
    (allOrganizations : Bool) (project : String) (w : World) : Except GoError PATToken × World :=
  let w0 := enter (.createPAT displayName scope expirationDays allOrganizations project) w
  let t := timeNow w0
  let req := HttpRequest.post displayName scope (env.formatAddDays t.1 expirationDays)
    allOrganizations
  match env.newRequestErr req with
  | some msg => (.error (.lib msg), t.2)
  | none =>
    let r := httpDo req t.2
    match r.1 with
    | .transportError msg => (.error (.lib msg), r.2)
    | .response resp =>
      match resp.readErr with
      | some msg => (.error (.lib msg), r.2)
      | none =>
        if resp.StatusCode ≠ 200 then
          (.error (.createStatus resp.StatusCode), r.2)
        else
          match env.unmarshalToken resp.body with
          | .error msg => (.error (.unmarshalPAT msg), r.2)
          | .ok pat => (.ok pat, r.2)

/-- The method `AzureDevOpsClient.RevokePAT`; `none` is Go `nil`. -/
def RevokePAT (env : Env) (authorizationID : String) (w : World) : Option GoError × World :=
  let w0 := enter (.revokePAT authorizationID) w
  let req := HttpRequest.delete authorizationID
  match env.newRequestErr req with
  | some msg => (some (.createRequest msg), w0)
  | none =>
    let r := httpDo req w0
    match r.1 with
    | .transportError msg => (some (.executeRequest msg), r.2)
    | .response resp =>
      if resp.StatusCode = 204 then (none, r.2)
      else if resp.StatusCode = 405 ∨ resp.StatusCode = 400 then
        (some (.deleteUnsupported resp.StatusCode), r.2)
      else if resp.StatusCode = 401 then (some .unauthorized, r.2)
      else (some (.unexpectedStatus resp.StatusCode resp.body), r.2)

/-- The inner loop of `GetPAT`: the first listed token with the requested identity. -/
def scanTokens (authorizationID : String) : List PATToken → Option PATToken
  | [] => none
  | pat :: rest =>
    if pat.AuthorizationID = authorizationID then some pat else scanTokens authorizationID rest

/-- The constant `maxRetries` of `GetPAT`. -/
def maxRetries : Nat := 3

/-- The constant `delay` of `GetPAT`. -/
def delay : Int := 2 * timeSecond

/-- The loop `for i := 0; i < maxRetries; i++` of `GetPAT`, with the number of iterations that
remain. -/
def getPATLoop (env : Env) (authorizationID : String) :
    Nat → World → Except GoError PATToken × World
  | 0, w => (.error (.notFoundAfterRetries authorizationID), w)
  | remaining + 1, w =>
    match env.newRequestErr .get with
    | some msg => (.error (.lib msg), w)
    | none =>
      let r := httpDo .get w
      match r.1 with
      | .transportError msg => (.error (.lib msg), r.2)
      | .response resp =>
        if resp.StatusCode ≠ 200 then
          (.error (.retrieveStatus resp.StatusCode), r.2)
        else
          match resp.readErr with
          | some msg => (.error (.lib msg), r.2)
          | none =>
            match env.unmarshalList resp.body with
            | .error msg => (.error (.unmarshalPAT msg), r.2)
            | .ok pats =>
              match scanTokens authorizationID pats with
              | some pat => (.ok pat, r.2)
              | none => getPATLoop env authorizationID remaining (timeSleep delay r.2)

/-- The method `AzureDevOpsClient.GetPAT`. -/
def GetPAT (env : Env) (authorizationID : String) (w : World) : Except GoError PATToken × World :=
  getPATLoop env authorizationID maxRetries (enter (.getPAT authorizationID) w)

/-! ## The resource callbacks (`resource_azure_devops_pat.go`) -/

/-- The branch `Read` takes on the stored expiry. -/
inductive ReadVerdict where
  | renew
  | expired
  | valid
deriving DecidableEq, Repr

/-- The conditions of lines 128 and 131 of `Read`:
`time.Now().After(renewalThreshold) && time.Now().Before(validTo)`, else
`time.Now().After(validTo)`; each `time.Now()` is a reading of its own and `&&` reads the
second one only when the first test holds. -/
def readVerdict (validTo threshold : Int) (w : World) : ReadVerdict × World :=
  let c1 := timeNow w
  let inWindow : Bool × World :=
    if c1.1 > threshold then
      let c2 := timeNow c1.2
      (decide (c2.1 < validTo), c2.2)
    else (false, c1.2)
  if inWindow.1 then (.renew, inWindow.2)
  else
    let c3 := timeNow inWindow.2
    if c3.1 > validTo then (.expired, c3.2) else (.valid, c3.2)

/-- The end of `Read`, from `client.GetPAT(authID)` on. -/
def readRefresh (env : Env) (d : ResourceData) (w : World) : Outcome :=
  let r := GetPAT env d.id w
  match r.1 with
  | .error err =>
    if stringsContains err.Error "not found" then
      ⟨none, { d with id := "" },
        println ("Debug: PAT with AuthorizationID=" ++ d.id ++
          " not found. Marking for recreation.") r.2⟩
    else ⟨some (.fromErr err), d, r.2⟩
  | .ok pat =>
    ⟨none, { d with display_name := pat.DisplayName, valid_to := pat.ValidTo,
                    authorization_id := pat.AuthorizationID },
      println "Debug: Exiting resourceAzureDevOpsPATRead normally" r.2⟩

/-- The condition of line 176 of `Update`, on the single reading `currentTime`. -/
def updateRenewalDue (validTo threshold : Int) (w : World) : Bool × World :=
  let c := timeNow w
  (decide (c.1 > threshold) || decide (c.1 > validTo), c.2)

mutual

/-- The callback `resourceAzureDevOpsPATCreate`. -/
def resourceAzureDevOpsPATCreate (env : Env) : Nat → ResourceData → World → Run
  | 0, _, w => .cutOff w
  | fuel + 1, d, w =>
    if d.renew_before_days > d.expiration_days then
      .done ⟨some (.renewExceedsExpiration d.renew_before_days d.expiration_days), d, w⟩
    else
      let r := CreatePAT env d.display_name d.scope d.expiration_days d.all_organization
        d.project w
      match r.1 with
      | .error err => .done ⟨some (.fromErr err), d, r.2⟩
      | .ok pat =>
        resourceAzureDevOpsPATRead env fuel
          { d with id := pat.AuthorizationID, token := pat.Token,
                   authorization_id := pat.AuthorizationID, display_name := pat.DisplayName,
                   valid_to := pat.ValidTo } r.2

/-- The callback `resourceAzureDevOpsPATRead`. -/
def resourceAzureDevOpsPATRead (env : Env) : Nat → ResourceData → World → Run
  | 0, _, w => .cutOff w
  | fuel + 1, d, w =>
    let w1 := println "Debug: Entering resourceAzureDevOpsPATRead" w
    if d.expiration_days ≤ d.renew_before_days then
      .done ⟨some (.invalidConfiguration d.expiration_days d.renew_before_days), d, w1⟩
    else
      match env.parseRFC3339 d.valid_to with
      | .error msg => .done ⟨some (.parseValidTo msg), d, w1⟩
      | .ok validTo =>
        let v := readVerdict validTo (renewalThreshold validTo d.renew_before_days) w1
        match v.1 with
        | .renew =>
          resourceAzureDevOpsPATUpdate env fuel d
            (println "Debug: PAT is within renew window; triggering renewal in Update" v.2)
        | .expired =>
          .done ⟨none, { d with id := "" },
            println "Debug: PAT is expired; marking for recreation" v.2⟩
        | .valid => .done (readRefresh env d v.2)

/-- The callback `resourceAzureDevOpsPATUpdate`. -/
def resourceAzureDevOpsPATUpdate (env : Env) : Nat → ResourceData → World → Run
  | 0, _, w => .cutOff w
  | fuel + 1, d, w =>
    match env.parseRFC3339 d.valid_to with
    | .error msg => .done ⟨some (.parseValidTo msg), d, w⟩
    | .ok validTo =>
      let c := updateRenewalDue validTo (renewalThreshold validTo d.renew_before_days) w
      if c.1 then
        let w2 := println "PAT is expired or within the renew window. Recreating..." c.2
        let r := RevokePAT env d.id w2
        match r.1 with
        | some err => .done ⟨some (.fromErr err), d, r.2⟩
        | none => resourceAzureDevOpsPATCreate env fuel d r.2
      else if d.HasChange "all_organization" then
        let w2 := println "allOrgs field has changed. Recreating the PAT." c.2
        let r := RevokePAT env d.id w2
        match r.1 with
        | some err => .done ⟨some (.fromErr err), d, r.2⟩
        | none => resourceAzureDevOpsPATCreate env fuel d r.2
      else if d.HasChange "display_name" || d.HasChange "scope"
          || d.HasChange "expiration_days" then
        let r := UpdatePAT env d.id d.display_name d.scope d.expiration_days d.all_organization c.2
        match r.1 with
        | .error err => .done ⟨some (.fromErr err), d, r.2⟩
        | .ok _ => resourceAzureDevOpsPATRead env fuel d r.2
      else resourceAzureDevOpsPATRead env fuel d c.2

end

/-- The callback `resourceAzureDevOpsPATDelete`. -/
def resourceAzureDevOpsPATDelete (env : Env) (d : ResourceData) (w : World) : Outcome :=
  let r := RevokePAT env d.id w
  match r.1 with
  | some err => ⟨some (.fromErr err), d, r.2⟩
  | none => ⟨none, { d with id := "" }, r.2⟩

/-! ## The specification's words, and sample data -/

/-- The function `Classify` of the RenewalPolicy as the specification words it: `Expired` iff
`now >= validTo`, `DueForRenewal` iff `validTo - renewBeforeDays*24h <= now < validTo`, `Valid`
otherwise. -/
def specClassify (now validTo renewBeforeDays : Int) : ReadVerdict :=
  if now ≥ validTo then .expired
  else if validTo - renewBeforeDays * 24 * timeHour ≤ now then .renew
  else .valid

/-- Whether a client method entered is `UpdatePAT` (Rotate). -/
def ApiCall.isRotate : ApiCall → Bool
  | .updatePAT _ _ _ _ _ => true
  | _ => false

/-- How many times `UpdatePAT` (Rotate) has been entered. -/
def rotations (w : World) : Nat :=
  (w.calls.filter ApiCall.isRotate).length

/-- From world `w` to world `w'` client methods were entered, none of them `UpdatePAT`
(Rotate). -/
def CallsWithoutRotate (w w' : World) : Prop :=
  ∃ tail, w'.calls = w.calls ++ tail ∧ ∀ c ∈ tail, ApiCall.isRotate c = false

/-- A listing answer that lets `GetPAT` go on to its next attempt: status 200, a body read
without error that decodes to a list with no token of the requested identity. -/
def IsMiss (env : Env) (authorizationID : String) (r : HttpResult) : Prop :=
  ∃ resp pats, r = .response resp ∧ resp.StatusCode = 200 ∧ resp.readErr = none ∧
    env.unmarshalList resp.body = .ok pats ∧
    ∀ p ∈ pats, p.AuthorizationID ≠ authorizationID

/-- A listing answer in which `pat` is the first listed token of the requested identity:
status 200, a body read without error that decodes to a list where `pat` has the identity and
no token listed before it has. -/
def IsHit (env : Env) (authorizationID : String) (r : HttpResult) (pat : PATToken) : Prop :=
  ∃ resp before after, r = .response resp ∧ resp.StatusCode = 200 ∧ resp.readErr = none ∧
    env.unmarshalList resp.body = .ok (before ++ pat :: after) ∧
    pat.AuthorizationID = authorizationID ∧
    ∀ p ∈ before, p.AuthorizationID ≠ authorizationID

/-- The answer to the request number `k` still to come (counting from 0), if the script has
one. -/
def answerAt (w : World) (k : Nat) : Option HttpResult :=
  w.script.get? k

/-- The answer to request number `j` is a miss. -/
def MissAt (env : Env) (authorizationID : String) (w : World) (j : Nat) : Prop :=
  ∃ a, answerAt w j = some a ∧ IsMiss env authorizationID a

/-- The answer to request number `k` is a hit, with `pat` its first token of the requested
identity. -/
def HitAt (env : Env) (authorizationID : String) (w : World) (k : Nat) (pat : PATToken) : Prop :=
  ∃ a, answerAt w k = some a ∧ IsHit env authorizationID a pat

/-- Twenty-four hours, in nanoseconds. -/
def day : Int := 24 * timeHour

/-- Sample instants: RFC3339 texts around 2025-01-01T00:00:00Z, which is instant 0. -/
def sampleInstants : List (String × Int) :=
  [("2025-01-01T00:00:00Z", 0),
   ("2024-12-31T23:00:00Z", -timeHour),
   ("2025-01-06T00:00:00Z", 5 * day),
   ("2025-01-08T00:00:00Z", 7 * day),
   ("2025-04-01T00:00:00Z", 90 * day)]

/-- A token as the remote service issues it. -/
def sampleIssued : PATToken :=
  ⟨"ci", "2025-04-01T00:00:00Z", "app_token", [], "2025-01-01T00:00:00Z", "new", "secret"⟩

/-- The listing entry of the stored token. -/
def sampleStored : PATToken :=
  ⟨"ci", "2025-04-01T00:00:00Z", "app_token", [], "2024-12-01T00:00:00Z", "old", ""⟩

/-- A sample environment: a table for RFC3339, three bodies the decoders know, every request
can be built. -/
def sampleEnv : Env where
  parseRFC3339 := fun s =>
    match sampleInstants.lookup s with
    | some t => .ok t
    | none => .error "cannot parse"
  formatAddDays := fun _ _ => "requested"
  newRequestErr := fun _ => none
  unmarshalToken := fun s => if s = "issued" then .ok sampleIssued else .error "bad body"
  unmarshalList := fun s =>
    if s = "listing" then .ok [sampleStored, sampleIssued]
    else if s = "nothing" then .ok []
    else .error "bad body"

/-- Sample resource data with identity "old". -/
def sampleData (validTo : String) (renewBeforeDays expirationDays : Int)
    (changed : List String) : ResourceData :=
  ⟨"old", "ci", "app_token", "old", "s3cr3t", validTo, renewBeforeDays, expirationDays, false, "",
    changed⟩

/-- Sample resource data of a resource that does not exist yet. -/
def sampleConfig (renewBeforeDays expirationDays : Int) : ResourceData :=
  ⟨"", "ci", "app_token", "", "", "", renewBeforeDays, expirationDays, false, "", []⟩

/-- A sample world: the clock stands at instant 0 and nothing has happened yet. -/
def sampleWorld (script : List HttpResult) : World :=
  ⟨0, [], script, [], [], [], 0⟩

/-- A scripted answer with the given status and body, read without error. -/
def answer (status : Int) (body : String) : HttpResult :=
  .response ⟨status, body, none⟩

/-! ## Basic facts -/

set_option maxRecDepth 100000

theorem wrapInt64_of_range (x : Int) (hlo : -9223372036854775808 ≤ x)
    (hhi : x ≤ 9223372036854775807) : wrapInt64 x = x := by
  unfold wrapInt64
  have h : (x + 2 ^ 63) % 2 ^ 64 = x + 2 ^ 63 := by
    apply Int.emod_eq_of_lt <;> norm_num <;> omega
  rw [h]; ring

theorem renewalOffset_of_range (rbd : Int) (hlo : -106751 ≤ rbd) (hhi : rbd ≤ 106751) :
    renewalOffset rbd = -(rbd * 24 * timeHour) := by
  unfold renewalOffset timeHour
  rw [wrapInt64_of_range rbd (by omega) (by omega)]
  rw [wrapInt64_of_range (-rbd) (by omega) (by omega)]
  rw [wrapInt64_of_range (-rbd * 24) (by omega) (by omega)]
  rw [wrapInt64_of_range _ (by omega) (by omega)]
  ring

theorem renewalThreshold_of_range (validTo rbd : Int) (hlo : -106751 ≤ rbd)
    (hhi : rbd ≤ 106751) :
    renewalThreshold validTo rbd = validTo - rbd * 24 * timeHour := by
  unfold renewalThreshold
  rw [renewalOffset_of_range rbd hlo hhi]; ring

theorem timeNow_frozen (w : World) (h : w.upcoming = []) : timeNow w = (w.now, w) := by
  simp [timeNow, h]

theorem readVerdict_frozen (validTo T : Int) (w : World) (h : w.upcoming = []) :
    readVerdict validTo T w =
      (if T < w.now ∧ w.now < validTo then ReadVerdict.renew
        else if validTo < w.now then ReadVerdict.expired else ReadVerdict.valid, w) := by
  unfold readVerdict
  simp only [timeNow_frozen w h]
  by_cases h1 : T < w.now <;> by_cases h2 : w.now < validTo <;> by_cases h3 : validTo < w.now <;>
    simp [h1, h2, h3, timeNow_frozen w h]

theorem updateRenewalDue_frozen (validTo T : Int) (w : World) (h : w.upcoming = []) :
    updateRenewalDue validTo T w = (decide (T < w.now) || decide (validTo < w.now), w) := by
  simp [updateRenewalDue, timeNow_frozen w h]

/-! ## The scan of a listing -/

theorem scanTokens_some (authorizationID : String) (pats : List PATToken) (pat : PATToken)
    (h : scanTokens authorizationID pats = some pat) : pat.AuthorizationID = authorizationID := by
  induction pats with
  | nil => simp [scanTokens] at h
  | cons p rest ih =>
    unfold scanTokens at h
    by_cases hp : p.AuthorizationID = authorizationID
    · simp [hp] at h; rw [← h]; exact hp
    · simp [hp] at h; exact ih h

/-! ## What the primitive effects and the client leave of the world -/

@[simp]
theorem timeNow_calls (w : World) : (timeNow w).2.calls = w.calls := by
  unfold timeNow; split <;> rfl

@[simp]
theorem timeNow_sent (w : World) : (timeNow w).2.sent = w.sent := by
  unfold timeNow; split <;> rfl

@[simp]
theorem timeNow_script (w : World) : (timeNow w).2.script = w.script := by
  unfold timeNow; split <;> rfl

@[simp]
theorem httpDo_calls (req : HttpRequest) (w : World) :
    (httpDo req w).2.calls = w.calls := by
  unfold httpDo; split <;> rfl

@[simp]
theorem httpDo_upcoming (req : HttpRequest) (w : World) :
    (httpDo req w).2.upcoming = w.upcoming := by
  unfold httpDo; split <;> rfl

@[simp]
theorem httpDo_now (req : HttpRequest) (w : World) :
    (httpDo req w).2.now = w.now := by
  unfold httpDo; split <;> rfl

@[simp]
theorem httpDo_sent (req : HttpRequest) (w : World) :
    (httpDo req w).2.sent = w.sent ++ [req] := by
  unfold httpDo; split <;> rfl

@[simp]
theorem enter_calls (c : ApiCall) (w : World) : (enter c w).calls = w.calls ++ [c] := rfl

@[simp]
theorem enter_upcoming (c : ApiCall) (w : World) : (enter c w).upcoming = w.upcoming :=
  rfl

@[simp]
theorem enter_now (c : ApiCall) (w : World) : (enter c w).now = w.now := rfl

@[simp]
theorem enter_sent (c : ApiCall) (w : World) : (enter c w).sent = w.sent := rfl

@[simp]
theorem enter_script (c : ApiCall) (w : World) : (enter c w).script = w.script := rfl

@[simp]
theorem println_calls (line : String) (w : World) : (println line w).calls = w.calls :=
  rfl

@[simp]
theorem println_upcoming (line : String) (w : World) :
    (println line w).upcoming = w.upcoming := rfl

@[simp]
theorem println_now (line : String) (w : World) : (println line w).now = w.now := rfl

@[simp]
theorem println_sent (line : String) (w : World) : (println line w).sent = w.sent := rfl

@[simp]
theorem println_script (line : String) (w : World) :
    (println line w).script = w.script := rfl

@[simp]
theorem timeSleep_calls (t : Int) (w : World) : (timeSleep t w).calls = w.calls := rfl

@[simp]
theorem timeSleep_upcoming (t : Int) (w : World) :
    (timeSleep t w).upcoming = w.upcoming := rfl

@[simp]
theorem timeSleep_now (t : Int) (w : World) : (timeSleep t w).now = w.now := rfl

@[simp]
theorem timeSleep_sent (t : Int) (w : World) : (timeSleep t w).sent = w.sent := rfl

@[simp]
theorem timeSleep_script (t : Int) (w : World) : (timeSleep t w).script = w.script :=
  rfl

theorem RevokePAT_calls (env : Env) (authorizationID : String) (w : World) :
    (RevokePAT env authorizationID w).2.calls = w.calls ++ [.revokePAT authorizationID] := by
  unfold RevokePAT
  dsimp only
  repeat' split
  all_goals simp

theorem RevokePAT_clock (env : Env) (authorizationID : String) (w : World) :
    (RevokePAT env authorizationID w).2.upcoming = w.upcoming ∧
    (RevokePAT env authorizationID w).2.now = w.now := by
  unfold RevokePAT
  dsimp only
  repeat' split
  all_goals simp

theorem CreatePAT_calls (env : Env) (displayName scope : String) (expirationDays : Int)
    (allOrganizations : Bool) (project : String) (w : World) :
    (CreatePAT env displayName scope expirationDays allOrganizations project w).2.calls =
      w.calls ++ [.createPAT displayName scope expirationDays allOrganizations project] := by
  unfold CreatePAT
  dsimp only
  repeat' split
  all_goals simp

theorem CreatePAT_clock (env : Env) (displayName scope : String) (expirationDays : Int)
    (allOrganizations : Bool) (project : String) (w : World) (hclock : w.upcoming = []) :
    (CreatePAT env displayName scope expirationDays allOrganizations project w).2.upcoming = [] ∧
    (CreatePAT env displayName scope expirationDays allOrganizations project w).2.now = w.now := by
  have hc : (enter (.createPAT displayName scope expirationDays allOrganizations project)
      w).upcoming = [] := hclock
  unfold CreatePAT
  dsimp only
  rw [timeNow_frozen _ hc]
  repeat' split
  all_goals simp [hclock]

theorem UpdatePAT_calls (env : Env) (authorizationID displayName scope : String)
    (expirationDays : Int) (allOrganizations : Bool) (w : World) :
    (UpdatePAT env authorizationID displayName scope expirationDays allOrganizations w).2.calls =
      w.calls ++ [.updatePAT authorizationID displayName scope expirationDays
        allOrganizations] := by
  unfold UpdatePAT
  dsimp only
  repeat' split
  all_goals simp

theorem UpdatePAT_clock (env : Env) (authorizationID displayName scope : String)
    (expirationDays : Int) (allOrganizations : Bool) (w : World) (hclock : w.upcoming = []) :
    (UpdatePAT env authorizationID displayName scope expirationDays allOrganizations
      w).2.upcoming = [] ∧
    (UpdatePAT env authorizationID displayName scope expirationDays allOrganizations w).2.now
      = w.now := by
  have hc : (enter (.updatePAT authorizationID displayName scope expirationDays allOrganizations)
      w).upcoming = [] := hclock
  unfold UpdatePAT
  dsimp only
  rw [timeNow_frozen _ hc]
  repeat' split
  all_goals simp [hclock]

theorem getPATLoop_calls (env : Env) (authorizationID : String) (remaining : Nat) (w : World) :
    (getPATLoop env authorizationID remaining w).2.calls = w.calls := by
  induction remaining generalizing w with
  | zero => simp [getPATLoop]
  | succ n ih =>
    unfold getPATLoop
    dsimp only
    repeat' split
    all_goals first | simp | (rw [ih]; simp)

theorem getPATLoop_upcoming (env : Env) (authorizationID : String) (remaining : Nat)
    (w : World) : (getPATLoop env authorizationID remaining w).2.upcoming = w.upcoming := by
  induction remaining generalizing w with
  | zero => simp [getPATLoop]
  | succ n ih =>
    unfold getPATLoop
    dsimp only
    repeat' split
    all_goals first | simp | (rw [ih]; simp)

theorem getPATLoop_now (env : Env) (authorizationID : String) (remaining : Nat) (w : World) :
    (getPATLoop env authorizationID remaining w).2.now = w.now := by
  induction remaining generalizing w with
  | zero => simp [getPATLoop]
  | succ n ih =>
    unfold getPATLoop
    dsimp only
    repeat' split
    all_goals first | simp | (rw [ih]; simp)

theorem GetPAT_calls (env : Env) (authorizationID : String) (w : World) :
    (GetPAT env authorizationID w).2.calls = w.calls ++ [.getPAT authorizationID] := by
  unfold GetPAT
  rw [getPATLoop_calls]
  rfl

theorem RevokePAT_sent (env : Env) (authorizationID : String) (w : World) :
    ((RevokePAT env authorizationID w).2.sent = w.sent ∧
      env.newRequestErr (.delete authorizationID) ≠ none) ∨
    ((RevokePAT env authorizationID w).2.sent = w.sent ++ [.delete authorizationID] ∧
      env.newRequestErr (.delete authorizationID) = none) := by
  unfold RevokePAT
  dsimp only
  cases h : env.newRequestErr (.delete authorizationID) with
  | some msg => left; simp
  | none =>
    right
    refine ⟨?_, rfl⟩
    dsimp only
    repeat' split
    all_goals simp

/-! ## Renewal and replacement never rotate -/

theorem CallsWithoutRotate.same (w w' : World) (h : w'.calls = w.calls) :
    CallsWithoutRotate w w' :=
  ⟨[], by simp [h], by simp⟩

theorem CallsWithoutRotate.step (w w1 w' : World) (c : ApiCall)
    (h1 : w1.calls = w.calls ++ [c]) (hc : ApiCall.isRotate c = false)
    (h : CallsWithoutRotate w1 w') :
    CallsWithoutRotate w w' := by
  obtain ⟨tail, ht, hall⟩ := h
  refine ⟨c :: tail, by simp [ht, h1], ?_⟩
  intro x hx
  rcases List.mem_cons.mp hx with rfl | hx
  · exact hc
  · exact hall x hx

theorem rotations_eq_of_callsWithoutRotate (w w' : World) (h : CallsWithoutRotate w w') :
    rotations w' = rotations w := by
  obtain ⟨tail, ht, hall⟩ := h
  unfold rotations
  rw [ht, List.filter_append]
  have : tail.filter ApiCall.isRotate = [] := by
    rw [List.filter_eq_nil_iff]
    intro a ha
    simp [hall a ha]
  simp [this]

theorem readRefresh_calls (env : Env) (d : ResourceData) (w : World) :
    (readRefresh env d w).w.calls = w.calls ++ [.getPAT d.id] := by
  unfold readRefresh
  dsimp only
  repeat' split
  all_goals simp [GetPAT_calls]

/-- On a standing clock, with any call budget: Create and Read never enter `UpdatePAT`, and
neither does Update when it starts with renewal due or with `all_organization` changed.  The
worlds compared are the world on entry and the world the run ends in, returned or cut off. -/
theorem renewal_never_rotates (env : Env) (fuel : Nat) :
    ∀ (d : ResourceData) (w : World), w.upcoming = [] →
      CallsWithoutRotate w (resourceAzureDevOpsPATCreate env fuel d w).world ∧
      CallsWithoutRotate w (resourceAzureDevOpsPATRead env fuel d w).world ∧
      ((∀ validTo, env.parseRFC3339 d.valid_to = .ok validTo →
          renewalThreshold validTo d.renew_before_days < w.now ∨ validTo < w.now ∨
            d.HasChange "all_organization" = true) →
        CallsWithoutRotate w (resourceAzureDevOpsPATUpdate env fuel d w).world) := by
  induction fuel with
  | zero =>
    intro d w _
    refine ⟨?_, ?_, ?_⟩
    · exact CallsWithoutRotate.same _ _ rfl
    · exact CallsWithoutRotate.same _ _ rfl
    · intro _; exact CallsWithoutRotate.same _ _ rfl
  | succ n ih =>
    intro d w hclock
    refine ⟨?_, ?_, ?_⟩
    · -- Create
      rw [resourceAzureDevOpsPATCreate]
      dsimp only
      split
      · exact CallsWithoutRotate.same _ _ rfl
      · split
        · exact CallsWithoutRotate.step _ _ _ _ (CreatePAT_calls ..) rfl
            (CallsWithoutRotate.same _ _ rfl)
        · exact CallsWithoutRotate.step _ _ _ _ (CreatePAT_calls ..) rfl
            ((ih _ _ (CreatePAT_clock _ _ _ _ _ _ _ hclock).1).2.1)
    · -- Read
      rw [resourceAzureDevOpsPATRead]
      dsimp only
      split
      · exact CallsWithoutRotate.same _ _ rfl
      · split
        · exact CallsWithoutRotate.same _ _ rfl
        · rename_i validTo hparse
          rw [readVerdict_frozen _ _ _ (show (println _ w).upcoming = [] from hclock)]
          dsimp only
          simp only [println_now]
          by_cases h1 : renewalThreshold validTo d.renew_before_days < w.now ∧ w.now < validTo
          · rw [if_pos h1]
            dsimp only
            have hu := (ih d (println
              "Debug: PAT is within renew window; triggering renewal in Update"
              (println "Debug: Entering resourceAzureDevOpsPATRead" w)) hclock).2.2
            apply hu
            intro validTo2 hparse2
            rw [hparse] at hparse2
            cases hparse2
            exact Or.inl h1.1
          · rw [if_neg h1]
            by_cases h2 : validTo < w.now
            · rw [if_pos h2]
              exact CallsWithoutRotate.same _ _ rfl
            · rw [if_neg h2]
              dsimp only [Run.world]
              exact CallsWithoutRotate.step w _ _ _
                (readRefresh_calls env d (println "Debug: Entering resourceAzureDevOpsPATRead" w))
                rfl (CallsWithoutRotate.same _ _ rfl)
    · -- Update
      intro hstart
      rw [resourceAzureDevOpsPATUpdate]
      dsimp only
      split
      · exact CallsWithoutRotate.same _ _ rfl
      · rename_i validTo hparse
        rw [updateRenewalDue_frozen _ _ _ hclock]
        dsimp only
        have hrec : ∀ line : String,
            CallsWithoutRotate w
              (match (RevokePAT env d.id (println line w)).1 with
                | some err => Run.done ⟨some (.fromErr err), d,
                    (RevokePAT env d.id (println line w)).2⟩
                | none => resourceAzureDevOpsPATCreate env n d
                    (RevokePAT env d.id (println line w)).2).world := by
          intro line
          split
          · exact CallsWithoutRotate.step w _ _ _ (RevokePAT_calls env d.id (println line w)) rfl
              (CallsWithoutRotate.same _ _ rfl)
          · exact CallsWithoutRotate.step w _ _ _ (RevokePAT_calls env d.id (println line w)) rfl
              ((ih d _ ((RevokePAT_clock env d.id (println line w)).1.trans hclock)).1)
        by_cases hdue : (decide (renewalThreshold validTo d.renew_before_days < w.now) ||
            decide (validTo < w.now)) = true
        · rw [if_pos hdue]
          exact hrec _
        · rw [if_neg hdue]
          have hchg : d.HasChange "all_organization" = true := by
            rcases hstart validTo hparse with h | h | h
            · exact absurd (by simp [h]) hdue
            · exact absurd (by simp [h]) hdue
            · exact h
          rw [if_pos hchg]
          exact hrec _

theorem create_calls (env : Env) (fuel : Nat) (d : ResourceData) (w : World)
    (hclock : w.upcoming = []) (hcfg : d.renew_before_days ≤ d.expiration_days) :
    ∃ tail, (resourceAzureDevOpsPATCreate env (fuel + 1) d w).world.calls =
        w.calls ++ .createPAT d.display_name d.scope d.expiration_days d.all_organization
          d.project :: tail ∧
      ∀ c ∈ tail, ApiCall.isRotate c = false := by
  have hcfg2 : ¬ d.renew_before_days > d.expiration_days := by omega
  rw [resourceAzureDevOpsPATCreate]
  dsimp only
  rw [if_neg hcfg2]
  split
  · exact ⟨[], CreatePAT_calls .., by simp⟩
  · rename_i pat _
    obtain ⟨tail, ht, hall⟩ := (renewal_never_rotates env fuel
      { d with id := pat.AuthorizationID, token := pat.Token,
               authorization_id := pat.AuthorizationID, display_name := pat.DisplayName,
               valid_to := pat.ValidTo }
      (CreatePAT env d.display_name d.scope d.expiration_days d.all_organization d.project w).2
      (CreatePAT_clock _ _ _ _ _ _ _ hclock).1).2.1
    refine ⟨tail, ?_, hall⟩
    rw [ht, CreatePAT_calls]
    simp

/-! ## One attempt of `GetPAT` -/

theorem scanTokens_none_iff (authorizationID : String) (pats : List PATToken) :
    scanTokens authorizationID pats = none ↔ ∀ p ∈ pats, p.AuthorizationID ≠ authorizationID := by
  induction pats with
  | nil => simp [scanTokens]
  | cons p rest ih =>
    unfold scanTokens
    by_cases hp : p.AuthorizationID = authorizationID
    · simp [hp]
    · simp [hp, ih]

theorem scanTokens_some_iff (authorizationID : String) (pats : List PATToken) (pat : PATToken) :
    scanTokens authorizationID pats = some pat ↔
      ∃ before after, pats = before ++ pat :: after ∧ pat.AuthorizationID = authorizationID ∧
        ∀ p ∈ before, p.AuthorizationID ≠ authorizationID := by
  induction pats with
  | nil => simp [scanTokens]
  | cons p rest ih =>
    unfold scanTokens
    by_cases hp : p.AuthorizationID = authorizationID
    · simp only [hp, if_true, Option.some.injEq]
      constructor
      · intro h
        subst h
        exact ⟨[], rest, rfl, hp, by simp⟩
      · rintro ⟨before, after, hl, hid, hb⟩
        cases before with
        | nil => simp at hl; exact hl.1
        | cons b bs =>
          simp at hl
          exact absurd (hl.1 ▸ hp) (hb b (by simp))
    · simp only [hp, if_false, ih]
      constructor
      · rintro ⟨before, after, hl, hid, hb⟩
        refine ⟨p :: before, after, by simp [hl], hid, ?_⟩
        intro q hq
        rcases List.mem_cons.mp hq with rfl | hq
        · exact hp
        · exact hb q hq
      · rintro ⟨before, after, hl, hid, hb⟩
        cases before with
        | nil => simp at hl; exact absurd (hl.1 ▸ hid) hp
        | cons b bs =>
          simp at hl
          exact ⟨bs, after, hl.2, hid, fun q hq => hb q (by simp [hq])⟩

theorem answerAt_httpDo (req : HttpRequest) (w : World) (j : Nat) :
    answerAt (httpDo req w).2 j = answerAt w (j + 1) := by
  unfold answerAt httpDo
  cases w.script <;> simp

theorem httpDo_fst (req : HttpRequest) (w : World) :
    (httpDo req w).1 = (answerAt w 0).getD (.transportError "no response") := by
  unfold answerAt httpDo
  cases w.script <;> simp

theorem isMiss_response_iff (env : Env) (authorizationID : String) (resp : HttpResponse) :
    IsMiss env authorizationID (.response resp) ↔
      resp.StatusCode = 200 ∧ resp.readErr = none ∧
        ∃ pats, env.unmarshalList resp.body = .ok pats ∧
          scanTokens authorizationID pats = none := by
  unfold IsMiss
  constructor
  · rintro ⟨r, pats, hr, h1, h2, h3, h4⟩
    cases hr
    exact ⟨h1, h2, pats, h3, (scanTokens_none_iff _ _).mpr h4⟩
  · rintro ⟨h1, h2, pats, h3, h4⟩
    exact ⟨resp, pats, rfl, h1, h2, h3, (scanTokens_none_iff _ _).mp h4⟩

theorem isHit_response_iff (env : Env) (authorizationID : String) (resp : HttpResponse)
    (pat : PATToken) :
    IsHit env authorizationID (.response resp) pat ↔
      resp.StatusCode = 200 ∧ resp.readErr = none ∧
        ∃ pats, env.unmarshalList resp.body = .ok pats ∧
          scanTokens authorizationID pats = some pat := by
  unfold IsHit
  constructor
  · rintro ⟨r, before, after, hr, h1, h2, h3, h4, h5⟩
    cases hr
    exact ⟨h1, h2, _, h3, (scanTokens_some_iff _ _ _).mpr ⟨before, after, rfl, h4, h5⟩⟩
  · rintro ⟨h1, h2, pats, h3, h4⟩
    obtain ⟨before, after, hl, hid, hb⟩ := (scanTokens_some_iff _ _ _).mp h4
    exact ⟨resp, before, after, rfl, h1, h2, hl ▸ h3, hid, hb⟩

theorem not_isMiss_transport (env : Env) (authorizationID msg : String) :
    ¬ IsMiss env authorizationID (.transportError msg) := by
  rintro ⟨r, pats, hr, _⟩
  cases hr

theorem not_isHit_transport (env : Env) (authorizationID msg : String) (pat : PATToken) :
    ¬ IsHit env authorizationID (.transportError msg) pat := by
  rintro ⟨r, before, after, hr, _⟩
  cases hr

theorem missAt_status (env : Env) (authorizationID : String) (w : World) (j : Nat)
    (resp : HttpResponse) (hm : MissAt env authorizationID w j)
    (ha : answerAt w j = some (.response resp)) : resp.StatusCode = 200 := by
  obtain ⟨a, h1, h2⟩ := hm
  rw [ha] at h1
  cases h1
  exact ((isMiss_response_iff _ _ _).mp h2).1

theorem hitAt_status (env : Env) (authorizationID : String) (w : World) (j : Nat)
    (resp : HttpResponse) (pat : PATToken) (hh : HitAt env authorizationID w j pat)
    (ha : answerAt w j = some (.response resp)) : resp.StatusCode = 200 := by
  obtain ⟨a, h1, h2⟩ := hh
  rw [ha] at h1
  cases h1
  exact ((isHit_response_iff _ _ _ _).mp h2).1

theorem missAt_not_hitAt (env : Env) (authorizationID : String) (w : World) (j : Nat)
    (pat : PATToken) (hm : MissAt env authorizationID w j) :
    ¬ HitAt env authorizationID w j pat := by
  rintro ⟨a, h1, h2⟩
  obtain ⟨b, h3, h4⟩ := hm
  rw [h1] at h3
  cases h3
  cases a with
  | transportError msg => exact not_isMiss_transport _ _ _ h4
  | response resp =>
    obtain ⟨_, _, pats, hp, hs⟩ := (isMiss_response_iff _ _ _).mp h4
    obtain ⟨_, _, pats2, hp2, hs2⟩ := (isHit_response_iff _ _ _ _).mp h2
    rw [hp] at hp2
    cases hp2
    rw [hs] at hs2
    cases hs2

theorem hitAt_unique (env : Env) (authorizationID : String) (w : World) (j : Nat)
    (pat pat2 : PATToken) (h : HitAt env authorizationID w j pat)
    (h2 : HitAt env authorizationID w j pat2) : pat = pat2 := by
  obtain ⟨a, h1, ha⟩ := h
  obtain ⟨b, h3, hb⟩ := h2
  rw [h1] at h3
  cases h3
  cases a with
  | transportError msg => exact absurd ha (not_isHit_transport _ _ _ _)
  | response resp =>
    obtain ⟨_, _, pats, hp, hs⟩ := (isHit_response_iff _ _ _ _).mp ha
    obtain ⟨_, _, pats2, hp2, hs2⟩ := (isHit_response_iff _ _ _ _).mp hb
    rw [hp] at hp2
    cases hp2
    rw [hs] at hs2
    cases hs2
    rfl

/-- One iteration of the loop of `GetPAT` when the request can be built: on a miss it sleeps
and goes on with one attempt fewer, on a hit it returns the token, and on anything else it
returns an error that is not the not-found error. -/
theorem getPATLoop_step (env : Env) (authorizationID : String) (n : Nat) (w : World)
    (hbuild : env.newRequestErr .get = none) :
    (MissAt env authorizationID w 0 ∧
      getPATLoop env authorizationID (n + 1) w =
        getPATLoop env authorizationID n (timeSleep delay (httpDo .get w).2)) ∨
    (∃ pat, HitAt env authorizationID w 0 pat ∧
      getPATLoop env authorizationID (n + 1) w = (.ok pat, (httpDo .get w).2)) ∨
    (¬ MissAt env authorizationID w 0 ∧ (∀ pat, ¬ HitAt env authorizationID w 0 pat) ∧
      ∃ e, getPATLoop env authorizationID (n + 1) w = (.error e, (httpDo .get w).2) ∧
        e ≠ .notFoundAfterRetries authorizationID ∧
        ∀ resp, answerAt w 0 = some (.response resp) → resp.StatusCode ≠ 200 →
          e = .retrieveStatus resp.StatusCode) := by
  rw [getPATLoop]
  simp only [hbuild, httpDo_fst]
  cases h0 : answerAt w 0 with
  | none =>
    right; right
    refine ⟨?_, ?_, .lib "no response", ?_, by simp, ?_⟩
    · rintro ⟨a, ha, _⟩; rw [h0] at ha; cases ha
    · rintro pat ⟨a, ha, _⟩; rw [h0] at ha; cases ha
    · simp
    · intro resp hr; cases hr
  | some a =>
    cases a with
    | transportError msg =>
      right; right
      refine ⟨?_, ?_, .lib msg, ?_, by simp, ?_⟩
      · rintro ⟨a, ha, hm⟩; rw [h0] at ha; cases ha
        exact not_isMiss_transport _ _ _ hm
      · rintro pat ⟨a, ha, hm⟩; rw [h0] at ha; cases ha
        exact not_isHit_transport _ _ _ _ hm
      · simp
      · intro resp hr; cases hr
    | response resp =>
      simp only [Option.getD_some]
      by_cases hs : resp.StatusCode = 200
      · cases hre : resp.readErr with
        | some msg =>
          right; right
          refine ⟨?_, ?_, .lib msg, ?_, by simp, ?_⟩
          · rintro ⟨a, ha, hm⟩; rw [h0] at ha; cases ha
            have := ((isMiss_response_iff _ _ _).mp hm).2.1
            rw [hre] at this; cases this
          · rintro pat ⟨a, ha, hm⟩; rw [h0] at ha; cases ha
            have := ((isHit_response_iff _ _ _ _).mp hm).2.1
            rw [hre] at this; cases this
          · simp [hs, hre]
          · intro resp2 hr hne; cases hr; exact absurd hs hne
        | none =>
          cases hu : env.unmarshalList resp.body with
          | error msg =>
            right; right
            refine ⟨?_, ?_, .unmarshalPAT msg, ?_, by simp, ?_⟩
            · rintro ⟨a, ha, hm⟩; rw [h0] at ha; cases ha
              obtain ⟨_, _, pats, hp, _⟩ := (isMiss_response_iff _ _ _).mp hm
              rw [hu] at hp; cases hp
            · rintro pat ⟨a, ha, hm⟩; rw [h0] at ha; cases ha
              obtain ⟨_, _, pats, hp, _⟩ := (isHit_response_iff _ _ _ _).mp hm
              rw [hu] at hp; cases hp
            · simp [hs, hre, hu]
            · intro resp2 hr hne; cases hr; exact absurd hs hne
          | ok pats =>
            cases hsc : scanTokens authorizationID pats with
            | none =>
              left
              refine ⟨⟨_, h0, (isMiss_response_iff _ _ _).mpr ⟨hs, hre, pats, hu, hsc⟩⟩, ?_⟩
              simp [hs, hre, hu, hsc]
            | some pat =>
              right; left
              refine ⟨pat, ⟨_, h0, (isHit_response_iff _ _ _ _).mpr ⟨hs, hre, pats, hu, hsc⟩⟩,
                ?_⟩
              simp [hs, hre, hu, hsc]
      · right; right
        refine ⟨?_, ?_, .retrieveStatus resp.StatusCode, ?_, by simp, ?_⟩
        · rintro ⟨a, ha, hm⟩; rw [h0] at ha; cases ha
          exact hs ((isMiss_response_iff _ _ _).mp hm).1
        · rintro pat ⟨a, ha, hm⟩; rw [h0] at ha; cases ha
          exact hs ((isHit_response_iff _ _ _ _).mp hm).1
        · simp [hs]
        · intro resp2 hr _; cases hr; rfl

theorem missAt_next (env : Env) (authorizationID : String) (w : World) (t : Int) (j : Nat) :
    MissAt env authorizationID (timeSleep t (httpDo .get w).2) j ↔
      MissAt env authorizationID w (j + 1) := by
  unfold MissAt
  rw [← answerAt_httpDo .get w j]
  rfl

theorem hitAt_next (env : Env) (authorizationID : String) (w : World) (t : Int) (j : Nat)
    (pat : PATToken) :
    HitAt env authorizationID (timeSleep t (httpDo .get w).2) j pat ↔
      HitAt env authorizationID w (j + 1) pat := by
  unfold HitAt
  rw [← answerAt_httpDo .get w j]
  rfl

theorem getPATLoop_sent (env : Env) (authorizationID : String) (n : Nat) (w : World) :
    ∃ k, k ≤ n ∧ (getPATLoop env authorizationID n w).2.sent = w.sent ++ List.replicate k .get := by
  induction n generalizing w with
  | zero => exact ⟨0, le_refl _, by simp [getPATLoop]⟩
  | succ n ih =>
    have one : ∀ v : World, v.sent = w.sent ++ [.get] →
        ∃ k, k ≤ n + 1 ∧ v.sent = w.sent ++ List.replicate k .get :=
      fun v hv => ⟨1, by omega, by simp [hv]⟩
    unfold getPATLoop
    dsimp only
    repeat' split
    all_goals first
      | exact one _ (httpDo_sent _ _)
      | (refine ⟨0, Nat.zero_le _, ?_⟩; simp; done)
      | skip
    obtain ⟨k, hk, hs⟩ := ih (timeSleep delay (httpDo .get w).2)
    refine ⟨k + 1, by omega, ?_⟩
    rw [hs]
    simp [List.replicate_succ]

/-- The loop of `GetPAT` with `n` attempts left, when the request can be built. -/
theorem getPATLoop_spec (env : Env) (authorizationID : String)
    (hbuild : env.newRequestErr .get = none) (n : Nat) :
    ∀ w : World,
      (∀ pat, (getPATLoop env authorizationID n w).1 = .ok pat ↔
        ∃ k, k < n ∧ (∀ j, j < k → MissAt env authorizationID w j) ∧
          HitAt env authorizationID w k pat) ∧
      (∀ k resp, k < n → (∀ j, j < k → MissAt env authorizationID w j) →
        answerAt w k = some (.response resp) → resp.StatusCode ≠ 200 →
          (getPATLoop env authorizationID n w).1 = .error (.retrieveStatus resp.StatusCode) ∧
          (getPATLoop env authorizationID n w).2.sent
            = w.sent ++ List.replicate (k + 1) .get) ∧
      ((getPATLoop env authorizationID n w).1 = .error (.notFoundAfterRetries authorizationID) ↔
        ∀ j, j < n → MissAt env authorizationID w j) := by
  induction n with
  | zero =>
    intro w
    refine ⟨?_, ?_, ?_⟩
    · intro pat
      simp [getPATLoop]
    · intro k resp hk
      omega
    · simp [getPATLoop]
  | succ n ih =>
    intro w
    rcases getPATLoop_step env authorizationID n w hbuild with
      ⟨hm, heq⟩ | ⟨pat0, hh, heq⟩ | ⟨hnm, hnh, e, heq, hne, hst⟩
    · -- a miss: the loop goes on
      obtain ⟨ih1, ih2, ih3⟩ := ih (timeSleep delay (httpDo .get w).2)
      rw [heq]
      refine ⟨?_, ?_, ?_⟩
      · intro pat
        rw [ih1 pat]
        constructor
        · rintro ⟨k, hk, hmiss, hhit⟩
          refine ⟨k + 1, by omega, ?_, (hitAt_next _ _ _ _ _ _).mp hhit⟩
          intro j hj
          cases j with
          | zero => exact hm
          | succ i => exact (missAt_next _ _ _ _ _).mp (hmiss i (by omega))
        · rintro ⟨k, hk, hmiss, hhit⟩
          cases k with
          | zero => exact absurd hhit (missAt_not_hitAt _ _ _ _ _ hm)
          | succ i =>
            exact ⟨i, by omega, fun j hj => (missAt_next _ _ _ _ _).mpr (hmiss (j + 1) (by omega)),
              (hitAt_next _ _ _ _ _ _).mpr hhit⟩
      · intro k resp hk hmiss ha hs
        cases k with
        | zero => exact absurd (missAt_status _ _ _ _ _ hm ha) hs
        | succ i =>
          have h := ih2 i resp (by omega)
            (fun j hj => (missAt_next _ _ _ _ _).mpr (hmiss (j + 1) (by omega)))
            (by rw [← ha]; exact answerAt_httpDo .get w i) hs
          refine ⟨h.1, ?_⟩
          rw [h.2]
          simp [List.replicate_succ]
      · rw [ih3]
        constructor
        · intro h j hj
          cases j with
          | zero => exact hm
          | succ i => exact (missAt_next _ _ _ _ _).mp (h i (by omega))
        · intro h j hj
          exact (missAt_next _ _ _ _ _).mpr (h (j + 1) (by omega))
    · -- a hit: the loop returns the token
      rw [heq]
      refine ⟨?_, ?_, ?_⟩
      · intro pat
        constructor
        · intro h
          simp only [Except.ok.injEq] at h
          subst h
          exact ⟨0, by omega, fun j hj => absurd hj (by omega), hh⟩
        · rintro ⟨k, hk, hmiss, hhit⟩
          cases k with
          | zero => rw [hitAt_unique _ _ _ _ _ _ hh hhit]
          | succ i => exact absurd hh (missAt_not_hitAt _ _ _ _ _ (hmiss 0 (by omega)))
      · intro k resp hk hmiss ha hs
        cases k with
        | zero => exact absurd (hitAt_status _ _ _ _ _ _ hh ha) hs
        | succ i => exact absurd hh (missAt_not_hitAt _ _ _ _ _ (hmiss 0 (by omega)))
      · constructor
        · intro h; cases h
        · intro h
          exact absurd hh (missAt_not_hitAt _ _ _ _ _ (h 0 (by omega)))
    · -- anything else: the loop returns an error
      rw [heq]
      refine ⟨?_, ?_, ?_⟩
      · intro pat
        constructor
        · intro h; cases h
        · rintro ⟨k, hk, hmiss, hhit⟩
          cases k with
          | zero => exact absurd hhit (hnh pat)
          | succ i => exact absurd (hmiss 0 (by omega)) hnm
      · intro k resp hk hmiss ha hs
        cases k with
        | zero =>
          rw [hst resp ha hs]
          exact ⟨rfl, by simp⟩
        | succ i => exact absurd (hmiss 0 (by omega)) hnm
      · constructor
        · intro h
          simp only [Except.error.injEq] at h
          exact absurd h hne
        · intro h
          exact absurd (h 0 (by omega)) hnm

/-! ## C1: the classification made by Read -/

/-- C1, counterexample.  At the instant `validTo - renewBeforeDays*24h` itself (stored expiry in
7 days, `renew_before_days = 7`, `expiration_days = 90`) the specification's `Classify` answers
DueForRenewal, but `Read` takes the Valid branch: with a budget of one call it ends without
diagnostics, keeps the identity, and its only client call is `GetPAT`. -/
theorem read_classification_counterexample :
    specClassify 0 (7 * day) 7 = .renew ∧
    (readVerdict (7 * day) (renewalThreshold (7 * day) 7)
        (println "Debug: Entering resourceAzureDevOpsPATRead"
          (sampleWorld [answer 200 "listing"]))).1 = .valid ∧
    (resourceAzureDevOpsPATRead sampleEnv 1 (sampleData "2025-01-08T00:00:00Z" 7 90 [])
        (sampleWorld [answer 200 "listing"])).result.map (fun o => (o.diags, o.d.id, o.w.calls))
      = some (none, "old", [.getPAT "old"]) := by
  decide

/-- C1, amended.  For a valid configuration, a stored expiry that parses to `validTo`, a clock
standing at `now ≠ validTo`, and `T` the threshold `validTo.Add(-renewBeforeDays*24h)` as the
code computes it: `Read` takes the Expired branch iff `validTo < now`, the renewal branch iff
`T < now < validTo`, the Valid branch iff `now ≤ T` and `now < validTo`.  In the Expired branch
it clears the identity and only prints; in the renewal branch it is `Update` on the same data;
in the Valid branch it is the fetch of `readRefresh`.  `T` is `validTo - renewBeforeDays*24h`
whenever `renewBeforeDays` is between -106751 and 106751, where the product fits 64 bits. -/
theorem read_classification (env : Env) (fuel : Nat) (d : ResourceData) (w : World)
    (validTo : Int)
    (hcfg : d.renew_before_days < d.expiration_days)
    (hparse : env.parseRFC3339 d.valid_to = .ok validTo)
    (hclock : w.upcoming = [])
    (hne : w.now ≠ validTo) :
    ((readVerdict validTo (renewalThreshold validTo d.renew_before_days)
        (println "Debug: Entering resourceAzureDevOpsPATRead" w)).1 = .expired
      ↔ validTo < w.now) ∧
    ((readVerdict validTo (renewalThreshold validTo d.renew_before_days)
        (println "Debug: Entering resourceAzureDevOpsPATRead" w)).1 = .renew
      ↔ renewalThreshold validTo d.renew_before_days < w.now ∧ w.now < validTo) ∧
    ((readVerdict validTo (renewalThreshold validTo d.renew_before_days)
        (println "Debug: Entering resourceAzureDevOpsPATRead" w)).1 = .valid
      ↔ w.now ≤ renewalThreshold validTo d.renew_before_days ∧ w.now < validTo) ∧
    (validTo < w.now →
      resourceAzureDevOpsPATRead env (fuel + 1) d w =
        .done ⟨none, { d with id := "" },
          println "Debug: PAT is expired; marking for recreation"
            (println "Debug: Entering resourceAzureDevOpsPATRead" w)⟩) ∧
    (renewalThreshold validTo d.renew_before_days < w.now ∧ w.now < validTo →
      resourceAzureDevOpsPATRead env (fuel + 1) d w =
        resourceAzureDevOpsPATUpdate env fuel d
          (println "Debug: PAT is within renew window; triggering renewal in Update"
            (println "Debug: Entering resourceAzureDevOpsPATRead" w))) ∧
    (w.now ≤ renewalThreshold validTo d.renew_before_days ∧ w.now < validTo →
      resourceAzureDevOpsPATRead env (fuel + 1) d w =
        .done (readRefresh env d (println "Debug: Entering resourceAzureDevOpsPATRead" w))) ∧
    (-106751 ≤ d.renew_before_days ∧ d.renew_before_days ≤ 106751 →
      renewalThreshold validTo d.renew_before_days
        = validTo - d.renew_before_days * 24 * timeHour) := by
  have hc : (println "Debug: Entering resourceAzureDevOpsPATRead" w).upcoming = [] := hclock
  have hn : (println "Debug: Entering resourceAzureDevOpsPATRead" w).now = w.now := rfl
  have hcfg2 : ¬ d.expiration_days ≤ d.renew_before_days := by omega
  rw [readVerdict_frozen _ _ _ hc, hn]
  refine ⟨?_, ?_, ?_, ?_, ?_, ?_, ?_⟩
  · by_cases h1 : renewalThreshold validTo d.renew_before_days < w.now ∧ w.now < validTo
    · simp only [h1, and_self, if_true]
      constructor
      · intro h; cases h
      · intro h; omega
    · by_cases h2 : validTo < w.now <;> simp [h1, h2]
  · by_cases h1 : renewalThreshold validTo d.renew_before_days < w.now ∧ w.now < validTo
    · simp [h1]
    · by_cases h2 : validTo < w.now <;> simp [h1, h2]
  · by_cases h1 : renewalThreshold validTo d.renew_before_days < w.now ∧ w.now < validTo
    · simp only [h1, and_self, if_true]
      constructor
      · intro h; cases h
      · intro h; omega
    · by_cases h2 : validTo < w.now
      · simp only [h1, h2, if_true, if_false]
        constructor
        · intro h; cases h
        · intro h; omega
      · simp only [h1, h2, if_false, true_iff]
        constructor
        · by_contra h3
          exact h1 ⟨by omega, by omega⟩
        · omega
  · intro h
    rw [resourceAzureDevOpsPATRead]
    simp only [hparse, readVerdict_frozen _ _ _ hc, hn]
    have h2 : ¬ (renewalThreshold validTo d.renew_before_days < w.now ∧ w.now < validTo) := by
      omega
    simp [hcfg2, h2, h]
  · intro h
    rw [resourceAzureDevOpsPATRead]
    simp only [hparse, readVerdict_frozen _ _ _ hc, hn]
    simp [hcfg2, h]
  · intro h
    rw [resourceAzureDevOpsPATRead]
    simp only [hparse, readVerdict_frozen _ _ _ hc, hn]
    have h2 : ¬ (renewalThreshold validTo d.renew_before_days < w.now ∧ w.now < validTo) := by
      omega
    have h3 : ¬ validTo < w.now := by omega
    simp [hcfg2, h2, h3]
  · intro h
    exact renewalThreshold_of_range validTo d.renew_before_days h.1 h.2

/-- C1, the amended statement at a sample: stored expiry in 5 days, `renew_before_days = 7`,
`expiration_days = 90`, the clock at instant 0. -/
theorem read_classification_witness :
    (7 : Int) < 90 ∧
    sampleEnv.parseRFC3339 (sampleData "2025-01-06T00:00:00Z" 7 90 []).valid_to = .ok (5 * day) ∧
    (sampleWorld []).upcoming = [] ∧
    (sampleWorld []).now ≠ 5 * day ∧
    ((readVerdict (5 * day) (renewalThreshold (5 * day) 7)
        (println "Debug: Entering resourceAzureDevOpsPATRead" (sampleWorld []))).1 = .renew
      ↔ renewalThreshold (5 * day) 7 < 0 ∧ (0 : Int) < 5 * day) :=
  ⟨by decide, rfl, rfl, by decide,
    (read_classification sampleEnv 0 (sampleData "2025-01-06T00:00:00Z" 7 90 []) (sampleWorld [])
      (5 * day) (by decide) rfl rfl (by decide)).2.1⟩

/-! ## C2: Read and Update on the same reading of the clock -/

/-- C2, the code at the failing input: the clock stands exactly at the stored expiry,
`renew_before_days = 7`, `expiration_days = 90`.  `Read` finds the token neither inside the
window nor expired and goes to fetch it (its only client call is `GetPAT`, whose answer 204 it
reports), while `Update` on the same data and world finds renewal due, revokes the stored
identity and issues a new token. -/
theorem read_update_disagree_at_expiry :
    (readVerdict 0 (renewalThreshold 0 7)
        (sampleWorld [answer 204 "", answer 200 "issued", answer 200 "listing"])).1 = .valid ∧
    (updateRenewalDue 0 (renewalThreshold 0 7)
        (sampleWorld [answer 204 "", answer 200 "issued", answer 200 "listing"])).1 = true ∧
    (resourceAzureDevOpsPATRead sampleEnv 4 (sampleData "2025-01-01T00:00:00Z" 7 90 [])
        (sampleWorld [answer 204 "", answer 200 "issued", answer 200 "listing"])).result.map
        (fun o => (o.diags, o.d.id, o.w.calls))
      = some (some (.fromErr (.retrieveStatus 204)), "old", [.getPAT "old"]) ∧
    (resourceAzureDevOpsPATUpdate sampleEnv 4 (sampleData "2025-01-01T00:00:00Z" 7 90 [])
        (sampleWorld [answer 204 "", answer 200 "issued", answer 200 "listing"])).result.map
        (fun o => (o.diags, o.d.id, o.w.calls))
      = some (none, "new",
          [.revokePAT "old", .createPAT "ci" "app_token" 90 false "", .getPAT "new"]) := by
  decide

/-- Away from the instant of expiry the two conditions agree: on a standing clock with
`now ≠ validTo`, `Read` leaves the Valid branch exactly when the condition of `Update` holds. -/
theorem read_update_agree_off_expiry (validTo T : Int) (w : World) (hclock : w.upcoming = [])
    (hne : w.now ≠ validTo) :
    (readVerdict validTo T w).1 ≠ .valid ↔ (updateRenewalDue validTo T w).1 = true := by
  rw [readVerdict_frozen _ _ _ hclock, updateRenewalDue_frozen _ _ _ hclock]
  by_cases h1 : T < w.now <;> by_cases h2 : w.now < validTo <;>
    by_cases h3 : validTo < w.now <;> simp [h1, h2, h3]
  all_goals omega

/-! ## C3: the check of `renew_before_days` against `expiration_days` -/

/-- Create refuses a configuration with `renew_before_days > expiration_days` before any client
call: data and world are as on entry. -/
theorem create_rejects_renew_above_expiration (env : Env) (fuel : Nat) (d : ResourceData)
    (w : World) (h : d.expiration_days < d.renew_before_days) :
    resourceAzureDevOpsPATCreate env (fuel + 1) d w =
      .done ⟨some (.renewExceedsExpiration d.renew_before_days d.expiration_days), d, w⟩ := by
  rw [resourceAzureDevOpsPATCreate]
  simp [h]

/-- Read refuses a configuration with `expiration_days <= renew_before_days` before any client
call: it has only printed its first line. -/
theorem read_rejects_invalid_configuration (env : Env) (fuel : Nat) (d : ResourceData)
    (w : World) (h : d.expiration_days ≤ d.renew_before_days) :
    resourceAzureDevOpsPATRead env (fuel + 1) d w =
      .done ⟨some (.invalidConfiguration d.expiration_days d.renew_before_days), d,
        println "Debug: Entering resourceAzureDevOpsPATRead" w⟩ := by
  rw [resourceAzureDevOpsPATRead]
  simp [h]

/-- C3, the code at the failing input `renew_before_days = expiration_days = 7`: Create passes
its own check (`7 > 7` is false), enters `CreatePAT`, puts the POST on the wire and takes the
identity of the issued token; only the Read it ends with reports the invalid configuration. -/
theorem create_issues_when_renew_equals_expiration :
    (resourceAzureDevOpsPATCreate sampleEnv 2 (sampleConfig 7 7)
        (sampleWorld [answer 200 "issued"])).result.map
        (fun o => (o.diags, o.d.id, o.d.token, o.w.calls, o.w.sent))
      = some (some (.invalidConfiguration 7 7), "new", "secret",
          [.createPAT "ci" "app_token" 7 false ""],
          [.post "ci" "app_token" "requested" false]) := by
  decide

/-! ## C4: the renewal made by Read -/

/-- C4, counterexample.  `renew_before_days = 106752`, `expiration_days = 106753`, stored expiry
in 5 days: the state satisfies the hypotheses of the claim (`0 ≤ 106752 < 106753`, and
`validTo - 106752*24h < now < validTo`), but the duration `-106752*24h` does not fit 64 bits of
nanoseconds and wraps to a positive one, so the threshold the code computes lies after
`validTo`.  `Read` takes the Valid branch: it enters `GetPAT` for the stored identity and
nothing else, makes no Revoke and no Issue, and keeps the stored identity. -/
theorem read_renewal_counterexample :
    ((0 : Int) ≤ 106752 ∧ (106752 : Int) < 106753) ∧
    (5 * day - 106752 * 24 * timeHour < 0 ∧ (0 : Int) < 5 * day) ∧
    renewalThreshold (5 * day) 106752 = 5 * day + 9223371273709551616 ∧
    (resourceAzureDevOpsPATRead sampleEnv 4 (sampleData "2025-01-06T00:00:00Z" 106752 106753 [])
        (sampleWorld [answer 200 "listing", answer 204 "", answer 200 "issued"])).result.map
        (fun o => (o.diags, o.d.id, o.w.calls, o.w.sent))
      = some (none, "old", [.getPAT "old"], [.get]) := by
  decide

/-- C4, amended with `renewBeforeDays ≤ 106751` (so that `renewBeforeDays*24h` fits 64 bits of
nanoseconds).  Let the configuration satisfy `0 ≤ renewBeforeDays < expirationDays`, the stored
expiry lie strictly inside the renewal window of a standing clock, every request be buildable,
and the remote answer the next three requests with 204, with 200 and a token `pat` of a fresh
identity whose `validTo` is `now + expirationDays` days, and with 200 and a listing in which
the first token of that identity is `found`, with the same `validTo`.  Then for every budget of
at least four calls `Read` returns, without diagnostics; the client methods entered are exactly
`RevokePAT` of the old identity, `CreatePAT`, `GetPAT` of the new identity, in this order, with
one DELETE, one POST and one GET on the wire; and the data left hold the new identity, which
differs from the old one, the new token, and a `valid_to` that parses to
`now + expirationDays` days. -/
theorem read_renews_once (env : Env) (fuel : Nat) (d : ResourceData) (w : World)
    (validTo : Int) (r1 r2 r3 : HttpResponse) (rest : List HttpResult)
    (pat found : PATToken) (pats : List PATToken)
    (hrbd0 : 0 ≤ d.renew_before_days) (hrbd1 : d.renew_before_days ≤ 106751)
    (hcfg : d.renew_before_days < d.expiration_days)
    (hparse : env.parseRFC3339 d.valid_to = .ok validTo)
    (hclock : w.upcoming = [])
    (hwin1 : validTo - d.renew_before_days * 24 * timeHour < w.now)
    (hwin2 : w.now < validTo)
    (hbuild : ∀ req, env.newRequestErr req = none)
    (hscript : w.script = .response r1 :: .response r2 :: .response r3 :: rest)
    (hrevoke : r1.StatusCode = 204)
    (hissue : r2.StatusCode = 200 ∧ r2.readErr = none ∧ env.unmarshalToken r2.body = .ok pat)
    (hfresh : pat.AuthorizationID ≠ d.id)
    (hvalid : env.parseRFC3339 pat.ValidTo = .ok (w.now + d.expiration_days * 24 * timeHour))
    (hfetch : r3.StatusCode = 200 ∧ r3.readErr = none ∧ env.unmarshalList r3.body = .ok pats ∧
      scanTokens pat.AuthorizationID pats = some found)
    (hsame : found.ValidTo = pat.ValidTo) :
    ∃ out, resourceAzureDevOpsPATRead env (fuel + 4) d w = .done out ∧
      out.diags = none ∧
      out.d.id = pat.AuthorizationID ∧ out.d.id ≠ d.id ∧
      out.d.authorization_id = pat.AuthorizationID ∧ out.d.token = pat.Token ∧
      out.d.valid_to = pat.ValidTo ∧
      env.parseRFC3339 out.d.valid_to = .ok (w.now + d.expiration_days * 24 * timeHour) ∧
      out.w.calls = w.calls ++
        [.revokePAT d.id,
         .createPAT d.display_name d.scope d.expiration_days d.all_organization d.project,
         .getPAT pat.AuthorizationID] ∧
      out.w.sent = w.sent ++
        [.delete d.id,
         .post d.display_name d.scope (env.formatAddDays w.now d.expiration_days)
           d.all_organization,
         .get] ∧
      out.w.script = rest := by
  obtain ⟨hi1, hi2, hi3⟩ := hissue
  obtain ⟨hf1, hf2, hf3, hf4⟩ := hfetch
  have hfid : found.AuthorizationID = pat.AuthorizationID := scanTokens_some _ _ _ hf4
  have hT := renewalThreshold_of_range validTo d.renew_before_days (by omega) hrbd1
  have hT2 := renewalThreshold_of_range (w.now + d.expiration_days * 24 * timeHour)
    d.renew_before_days (by omega) hrbd1
  have hA : renewalThreshold validTo d.renew_before_days < w.now := by rw [hT]; exact hwin1
  have hB : ¬ (renewalThreshold (w.now + d.expiration_days * 24 * timeHour)
      d.renew_before_days < w.now) := by
    rw [hT2]; unfold timeHour; omega
  have hC : ¬ (w.now + d.expiration_days * 24 * timeHour < w.now) := by
    unfold timeHour; omega
  have hcfg2 : ¬ d.expiration_days ≤ d.renew_before_days := by omega
  have hcfg3 : ¬ d.expiration_days < d.renew_before_days := by omega
  simp [resourceAzureDevOpsPATRead, resourceAzureDevOpsPATUpdate, resourceAzureDevOpsPATCreate,
    readVerdict, updateRenewalDue, readRefresh, RevokePAT, CreatePAT, GetPAT, getPATLoop,
    maxRetries, httpDo, enter, println, timeNow, hclock, hscript, hbuild, hparse, hvalid,
    hrevoke, hi1, hi2, hi3, hf1, hf2, hf3, hf4, hA, hB, hC, hwin2, hcfg2, hcfg3, hfid, hsame,
    hfresh]

/-- C4, the amended statement at the sample of the specification: stored expiry in 5 days,
`renew_before_days = 7`, `expiration_days = 90`, the remote answering 204 to the DELETE, the
issued token "new" valid for 90 days to the POST and a listing holding it to the GET. -/
theorem read_renews_once_witness :
    ((0 : Int) ≤ 7 ∧ (7 : Int) ≤ 106751 ∧ (7 : Int) < 90) ∧
    (5 * day - 7 * 24 * timeHour < 0 ∧ (0 : Int) < 5 * day) ∧
    sampleEnv.parseRFC3339 sampleIssued.ValidTo = .ok (0 + 90 * 24 * timeHour) ∧
    ∃ out, resourceAzureDevOpsPATRead sampleEnv 4 (sampleData "2025-01-06T00:00:00Z" 7 90 [])
        (sampleWorld [answer 204 "", answer 200 "issued", answer 200 "listing"]) = .done out ∧
      out.diags = none ∧
      out.d.id = "new" ∧ out.d.id ≠ "old" ∧
      out.d.authorization_id = "new" ∧ out.d.token = "secret" ∧
      out.d.valid_to = "2025-04-01T00:00:00Z" ∧
      sampleEnv.parseRFC3339 out.d.valid_to = .ok (0 + 90 * 24 * timeHour) ∧
      out.w.calls = [] ++
        [.revokePAT "old", .createPAT "ci" "app_token" 90 false "", .getPAT "new"] ∧
      out.w.sent = [] ++ [.delete "old", .post "ci" "app_token" "requested" false, .get] ∧
      out.w.script = [] :=
  ⟨by decide, by decide, rfl,
    read_renews_once sampleEnv 0 (sampleData "2025-01-06T00:00:00Z" 7 90 [])
      (sampleWorld [answer 204 "", answer 200 "issued", answer 200 "listing"]) (5 * day)
      ⟨204, "", none⟩ ⟨200, "issued", none⟩ ⟨200, "listing", none⟩ [] sampleIssued sampleIssued
      [sampleStored, sampleIssued]
      (by decide) (by decide) (by decide) rfl rfl (by decide) (by decide) (fun _ => rfl) rfl rfl
      ⟨rfl, rfl, rfl⟩ (by decide) rfl ⟨rfl, rfl, rfl, by decide⟩ rfl⟩

/-! ## C5: Read on an expired token -/

/-- C5.  For a valid configuration, a stored expiry that parses to `validTo` and a clock
standing after it, `Read` returns without diagnostics, the data it leaves is the data on entry
with the identity set to the empty string (token, `valid_to`, `display_name`,
`authorization_id` and the rest untouched), no client method is entered, nothing is put on the
wire, no scripted answer is used: the world differs only by the two lines printed. -/
theorem read_expired (env : Env) (fuel : Nat) (d : ResourceData) (w : World) (validTo : Int)
    (hcfg : d.renew_before_days < d.expiration_days)
    (hparse : env.parseRFC3339 d.valid_to = .ok validTo)
    (hclock : w.upcoming = [])
    (hexp : validTo < w.now) :
    ∃ out, resourceAzureDevOpsPATRead env (fuel + 1) d w = .done out ∧
      out.diags = none ∧
      out.d = { d with id := "" } ∧
      out.d.id = "" ∧ out.d.token = d.token ∧ out.d.valid_to = d.valid_to ∧
      out.d.display_name = d.display_name ∧ out.d.authorization_id = d.authorization_id ∧
      out.w.calls = w.calls ∧ out.w.sent = w.sent ∧ out.w.script = w.script ∧
      out.w = println "Debug: PAT is expired; marking for recreation"
        (println "Debug: Entering resourceAzureDevOpsPATRead" w) := by
  have hc : (println "Debug: Entering resourceAzureDevOpsPATRead" w).upcoming = [] := hclock
  have hn : (println "Debug: Entering resourceAzureDevOpsPATRead" w).now = w.now := rfl
  have hcfg2 : ¬ d.expiration_days ≤ d.renew_before_days := by omega
  have h2 : ¬ (renewalThreshold validTo d.renew_before_days < w.now ∧ w.now < validTo) := by
    omega
  refine ⟨⟨none, { d with id := "" },
    println "Debug: PAT is expired; marking for recreation"
      (println "Debug: Entering resourceAzureDevOpsPATRead" w)⟩, ?_, rfl, rfl, rfl, rfl, rfl, rfl,
    rfl, rfl, rfl, rfl, rfl⟩
  rw [resourceAzureDevOpsPATRead]
  simp only [hparse, readVerdict_frozen _ _ _ hc, hn]
  simp [hcfg2, h2, hexp]

/-- C5 at a sample: stored expiry one hour ago, `renew_before_days = 7`,
`expiration_days = 90`; the scripted answer stays unused. -/
theorem read_expired_witness :
    (7 : Int) < 90 ∧
    sampleEnv.parseRFC3339 (sampleData "2024-12-31T23:00:00Z" 7 90 []).valid_to
      = .ok (-timeHour) ∧
    (sampleWorld [answer 200 "listing"]).upcoming = [] ∧
    -timeHour < (sampleWorld [answer 200 "listing"]).now ∧
    ∃ out, resourceAzureDevOpsPATRead sampleEnv 1 (sampleData "2024-12-31T23:00:00Z" 7 90 [])
        (sampleWorld [answer 200 "listing"]) = .done out ∧
      out.diags = none ∧
      out.d = { sampleData "2024-12-31T23:00:00Z" 7 90 [] with id := "" } ∧
      out.d.id = "" ∧ out.d.token = "s3cr3t" ∧ out.d.valid_to = "2024-12-31T23:00:00Z" ∧
      out.d.display_name = "ci" ∧ out.d.authorization_id = "old" ∧
      out.w.calls = [] ∧ out.w.sent = [] ∧ out.w.script = [answer 200 "listing"] ∧
      out.w = println "Debug: PAT is expired; marking for recreation"
        (println "Debug: Entering resourceAzureDevOpsPATRead"
          (sampleWorld [answer 200 "listing"])) :=
  ⟨by decide, rfl, rfl, by decide,
    read_expired sampleEnv 0 (sampleData "2024-12-31T23:00:00Z" 7 90 [])
      (sampleWorld [answer 200 "listing"]) (-timeHour) (by decide) rfl rfl (by decide)⟩

/-! ## C6: a change of `all_organization` -/

/-- C6, counterexample.  `all_organization` changed, stored expiry in 90 days (so
`now ≤ validTo - renewBeforeDays*24h`), `renew_before_days = 7`, `expiration_days = 5`, the
remote answering the DELETE with 204.  The state satisfies the hypotheses of the claim and
`RevokePAT` succeeds, but the `Create` that follows stops at its own check of the configuration:
`Update` returns that error, the only client method entered is `RevokePAT`, the only request on
the wire is the DELETE, and no `CreatePAT` follows the successful Revoke. -/
theorem update_scope_change_counterexample :
    (0 : Int) ≤ 90 * day - 7 * 24 * timeHour ∧
    (sampleData "2025-04-01T00:00:00Z" 7 5 ["all_organization"]).HasChange "all_organization"
      = true ∧
    (RevokePAT sampleEnv "old"
        (println "allOrgs field has changed. Recreating the PAT."
          (sampleWorld [answer 204 "", answer 200 "issued", answer 200 "listing"]))).1 = none ∧
    (resourceAzureDevOpsPATUpdate sampleEnv 3
        (sampleData "2025-04-01T00:00:00Z" 7 5 ["all_organization"])
        (sampleWorld [answer 204 "", answer 200 "issued", answer 200 "listing"])).result.map
        (fun o => (o.diags, o.d.id, o.w.calls, o.w.sent))
      = some (some (.renewExceedsExpiration 7 5), "old", [.revokePAT "old"],
          [.delete "old"]) := by
  decide

/-- C6, amended: the Issue follows the successful Revoke whenever
`renew_before_days ≤ expiration_days`.  Let the stored expiry parse, the clock stand, and
`HasChange("all_organization")` hold; whether the renewal condition holds or not, and
whatever else has changed, with a budget of at least two calls.  With `line`
the line `Update` prints on its way and `r` the result of `RevokePAT` on the stored identity:
`Update` is the failure of `RevokePAT` with the data untouched, or else `Create` run after it;
the first client method entered is `RevokePAT` of the stored identity; nothing follows a failed
Revoke; after a successful Revoke and with `renew_before_days ≤ expiration_days` the next
method entered is `CreatePAT`; and `UpdatePAT` is entered nowhere in the run, whether the run
returns or is cut off by its budget. -/
theorem update_replaces_on_scope_change (env : Env) (fuel : Nat) (d : ResourceData) (w : World)
    (validTo : Int)
    (hparse : env.parseRFC3339 d.valid_to = .ok validTo)
    (hclock : w.upcoming = [])
    (hchg : d.HasChange "all_organization" = true) :
    ∃ line r,
      line = (if renewalThreshold validTo d.renew_before_days < w.now ∨ validTo < w.now
        then "PAT is expired or within the renew window. Recreating..."
        else "allOrgs field has changed. Recreating the PAT.") ∧
      r = RevokePAT env d.id (println line w) ∧
      resourceAzureDevOpsPATUpdate env (fuel + 2) d w =
        (match r.1 with
          | some err => .done ⟨some (.fromErr err), d, r.2⟩
          | none => resourceAzureDevOpsPATCreate env (fuel + 1) d r.2) ∧
      r.2.calls = w.calls ++ [.revokePAT d.id] ∧
      (∃ tail, (resourceAzureDevOpsPATUpdate env (fuel + 2) d w).world.calls =
          w.calls ++ .revokePAT d.id :: tail ∧
        (∀ c ∈ tail, ApiCall.isRotate c = false) ∧
        (r.1 ≠ none → tail = []) ∧
        (r.1 = none → d.renew_before_days ≤ d.expiration_days →
          ∃ tail2, tail = .createPAT d.display_name d.scope d.expiration_days
            d.all_organization d.project :: tail2)) ∧
      rotations (resourceAzureDevOpsPATUpdate env (fuel + 2) d w).world = rotations w := by
  refine ⟨_, _, rfl, rfl, ?_⟩
  have heq : resourceAzureDevOpsPATUpdate env (fuel + 2) d w =
      (match (RevokePAT env d.id (println (if renewalThreshold validTo d.renew_before_days
            < w.now ∨ validTo < w.now
          then "PAT is expired or within the renew window. Recreating..."
          else "allOrgs field has changed. Recreating the PAT.") w)).1 with
        | some err => .done ⟨some (.fromErr err), d, (RevokePAT env d.id (println (if
            renewalThreshold validTo d.renew_before_days < w.now ∨ validTo < w.now
          then "PAT is expired or within the renew window. Recreating..."
          else "allOrgs field has changed. Recreating the PAT.") w)).2⟩
        | none => resourceAzureDevOpsPATCreate env (fuel + 1) d (RevokePAT env d.id (println (if
            renewalThreshold validTo d.renew_before_days < w.now ∨ validTo < w.now
          then "PAT is expired or within the renew window. Recreating..."
          else "allOrgs field has changed. Recreating the PAT.") w)).2) := by
    rw [resourceAzureDevOpsPATUpdate]
    simp only [hparse, updateRenewalDue_frozen _ _ _ hclock]
    by_cases hdue : renewalThreshold validTo d.renew_before_days < w.now ∨ validTo < w.now
    · simp [hdue]
    · simp [hdue, hchg]
  have hrot := (renewal_never_rotates env (fuel + 2) d w hclock).2.2
    (fun v hv => Or.inr (Or.inr hchg))
  refine ⟨heq, RevokePAT_calls .., ?_, rotations_eq_of_callsWithoutRotate _ _ hrot⟩
  rw [heq]
  generalize (if renewalThreshold validTo d.renew_before_days < w.now ∨ validTo < w.now
      then "PAT is expired or within the renew window. Recreating..."
      else "allOrgs field has changed. Recreating the PAT.") = line
  have hrc := RevokePAT_calls env d.id (println line w)
  have hrk := (RevokePAT_clock env d.id (println line w)).1.trans
    (show (println line w).upcoming = [] from hclock)
  cases hr : (RevokePAT env d.id (println line w)).1 with
  | some err =>
    refine ⟨[], ?_, by simp, fun _ => rfl, fun h => by cases h⟩
    simp [Run.world, hrc]
  | none =>
    by_cases hcfg : d.renew_before_days ≤ d.expiration_days
    · obtain ⟨tail2, ht, hall⟩ := create_calls env fuel d _ hrk hcfg
      refine ⟨_ :: tail2, ?_, ?_, fun h => absurd rfl h, fun _ _ => ⟨tail2, rfl⟩⟩
      · simp only [ht, hrc]
        simp
      · intro c hc
        rcases List.mem_cons.mp hc with rfl | hc
        · rfl
        · exact hall c hc
    · refine ⟨[], ?_, by simp, fun h => absurd rfl h, fun _ h => absurd h hcfg⟩
      have hgt : d.renew_before_days > d.expiration_days := by omega
      rw [resourceAzureDevOpsPATCreate]
      simp [hgt, Run.world, hrc]

/-- C6, the amended statement at a sample: expiry in 90 days, `renew_before_days = 7`,
`expiration_days = 90`, `all_organization` and `display_name` both changed, the remote
answering 204, the issued token, and a listing; a budget of three calls. -/
theorem update_replaces_on_scope_change_witness :
    sampleEnv.parseRFC3339
      (sampleData "2025-04-01T00:00:00Z" 7 90 ["all_organization", "display_name"]).valid_to
      = .ok (90 * day) ∧
    (sampleData "2025-04-01T00:00:00Z" 7 90 ["all_organization", "display_name"]).HasChange
      "all_organization" = true ∧
    (resourceAzureDevOpsPATUpdate sampleEnv 3
        (sampleData "2025-04-01T00:00:00Z" 7 90 ["all_organization", "display_name"])
        (sampleWorld [answer 204 "", answer 200 "issued", answer 200 "listing"])).world.calls
      = [.revokePAT "old", .createPAT "ci" "app_token" 90 false "", .getPAT "new"] ∧
    rotations (resourceAzureDevOpsPATUpdate sampleEnv 3
        (sampleData "2025-04-01T00:00:00Z" 7 90 ["all_organization", "display_name"])
        (sampleWorld [answer 204 "", answer 200 "issued", answer 200 "listing"])).world
      = rotations (sampleWorld [answer 204 "", answer 200 "issued", answer 200 "listing"]) :=
  ⟨rfl, by decide, by decide, by
    obtain ⟨_, _, _, _, _, _, _, h⟩ := update_replaces_on_scope_change sampleEnv 1
      (sampleData "2025-04-01T00:00:00Z" 7 90 ["all_organization", "display_name"])
      (sampleWorld [answer 204 "", answer 200 "issued", answer 200 "listing"]) (90 * day)
      rfl rfl (by decide)
    exact h⟩

/-! ## C7: a change of a mutable field -/

/-- C7, counterexample.  `renew_before_days = -1`, `expiration_days = 90`, stored expiry one
hour ago, only `display_name` changed.  The state satisfies the hypotheses of the claim
(`90 > -1`, `now ≤ validTo - (-1)*24h`, `all_organization` unchanged), but `Update` finds
`now` after `validTo`, revokes the stored identity and issues a new token: `UpdatePAT` is never
entered. -/
theorem update_rotate_counterexample :
    ((-1 : Int) < 90 ∧ (0 : Int) ≤ -timeHour - (-1) * 24 * timeHour) ∧
    (sampleData "2024-12-31T23:00:00Z" (-1) 90 ["display_name"]).HasChange "all_organization"
      = false ∧
    (sampleData "2024-12-31T23:00:00Z" (-1) 90 ["display_name"]).HasChange "display_name"
      = true ∧
    (resourceAzureDevOpsPATUpdate sampleEnv 3
        (sampleData "2024-12-31T23:00:00Z" (-1) 90 ["display_name"])
        (sampleWorld [answer 204 "", answer 200 "issued", answer 200 "listing"])).result.map
        (fun o => (o.diags, o.d.id, o.w.calls))
      = some (none, "new",
          [.revokePAT "old", .createPAT "ci" "app_token" 90 false "", .getPAT "new"]) := by
  decide

/-- C7, amended: the stored expiry is outside the renewal condition as `Update` evaluates it,
`now ≤ T` and `now ≤ validTo`, with `T` the threshold `validTo.Add(-renewBeforeDays*24h)` of
the code (equal to `validTo - renewBeforeDays*24h` for `renewBeforeDays` between -106751 and
106751).  For a valid configuration, a standing clock, `all_organization` unchanged and one of
`display_name`, `scope`, `expiration_days` changed, `Update` with a budget of at least two
calls returns: its first client call is `UpdatePAT` on the stored identity, say with result
`r`; if that fails, `Update` returns the failure, data untouched, and nothing else is entered;
if it succeeds, `Update` ends with the fetch of `Read`: the client methods entered are exactly
`UpdatePAT` then `GetPAT` of the stored identity, and when `GetPAT` finds a token the run has
no diagnostics and keeps the identity. -/
theorem update_rotates_once (env : Env) (fuel : Nat) (d : ResourceData) (w : World)
    (validTo : Int)
    (hcfg : d.renew_before_days < d.expiration_days)
    (hparse : env.parseRFC3339 d.valid_to = .ok validTo)
    (hclock : w.upcoming = [])
    (hthr : w.now ≤ renewalThreshold validTo d.renew_before_days)
    (hlive : w.now ≤ validTo)
    (hsame : d.HasChange "all_organization" = false)
    (hchg : (d.HasChange "display_name" || d.HasChange "scope"
      || d.HasChange "expiration_days") = true) :
    ∃ r w1,
      r = UpdatePAT env d.id d.display_name d.scope d.expiration_days d.all_organization w ∧
      w1 = println "Debug: Entering resourceAzureDevOpsPATRead" r.2 ∧
      r.2.calls = w.calls ++
        [.updatePAT d.id d.display_name d.scope d.expiration_days d.all_organization] ∧
      (∀ err, r.1 = .error err →
        resourceAzureDevOpsPATUpdate env (fuel + 2) d w = .done ⟨some (.fromErr err), d, r.2⟩) ∧
      (∀ tok, r.1 = .ok tok →
        resourceAzureDevOpsPATUpdate env (fuel + 2) d w = .done (readRefresh env d w1) ∧
        (readRefresh env d w1).w.calls = w.calls ++
          [.updatePAT d.id d.display_name d.scope d.expiration_days d.all_organization,
           .getPAT d.id] ∧
        ∀ pat, (GetPAT env d.id w1).1 = .ok pat →
          (readRefresh env d w1).diags = none ∧
          (readRefresh env d w1).d.id = d.id ∧
          (readRefresh env d w1).d =
            { d with display_name := pat.DisplayName, valid_to := pat.ValidTo,
                     authorization_id := pat.AuthorizationID }) ∧
      (-106751 ≤ d.renew_before_days ∧ d.renew_before_days ≤ 106751 →
        renewalThreshold validTo d.renew_before_days
          = validTo - d.renew_before_days * 24 * timeHour) := by
  refine ⟨_, _, rfl, rfl, UpdatePAT_calls .., ?_, ?_,
    fun h => renewalThreshold_of_range _ _ h.1 h.2⟩
  · intro err herr
    rw [resourceAzureDevOpsPATUpdate]
    simp only [hparse, updateRenewalDue_frozen _ _ _ hclock]
    have h1 : ¬ renewalThreshold validTo d.renew_before_days < w.now := by omega
    have h2 : ¬ validTo < w.now := by omega
    simp [h1, h2, hsame, hchg, herr]
  · intro tok hok
    have hk := UpdatePAT_clock env d.id d.display_name d.scope d.expiration_days
      d.all_organization w hclock
    have hcfg2 : ¬ d.expiration_days ≤ d.renew_before_days := by omega
    have h1 : ¬ renewalThreshold validTo d.renew_before_days < w.now := by omega
    have h2 : ¬ validTo < w.now := by omega
    refine ⟨?_, ?_, ?_⟩
    · rw [resourceAzureDevOpsPATUpdate]
      simp only [hparse, updateRenewalDue_frozen _ _ _ hclock]
      simp only [h1, h2, hsame, hchg, hok, decide_False, Bool.or_self, if_true, if_false,
        Bool.false_eq_true]
      rw [resourceAzureDevOpsPATRead]
      simp only [hcfg2, if_false, hparse]
      rw [readVerdict_frozen _ _ _ (show (println _ _).upcoming = [] from hk.1)]
      simp [hk.2, h1, h2]
    · rw [readRefresh_calls, println_calls, UpdatePAT_calls]
      simp
    · intro pat hpat
      unfold readRefresh
      simp [hpat]

/-- C7, the amended statement at a sample: expiry in 90 days, `renew_before_days = 7`,
`expiration_days = 90`, only `display_name` changed, the remote answering the PUT with 200 and
the GET with a listing that holds the stored identity. -/
theorem update_rotates_once_witness :
    ((7 : Int) < 90 ∧ (0 : Int) ≤ renewalThreshold (90 * day) 7 ∧ (0 : Int) ≤ 90 * day) ∧
    (sampleData "2025-04-01T00:00:00Z" 7 90 ["display_name"]).HasChange "all_organization"
      = false ∧
    (UpdatePAT sampleEnv "old" "ci" "app_token" 90 false
        (sampleWorld [answer 200 "issued", answer 200 "listing"])).2.calls
      = [] ++ [.updatePAT "old" "ci" "app_token" 90 false] ∧
    resourceAzureDevOpsPATUpdate sampleEnv 2 (sampleData "2025-04-01T00:00:00Z" 7 90
        ["display_name"]) (sampleWorld [answer 200 "issued", answer 200 "listing"])
      = .done (readRefresh sampleEnv (sampleData "2025-04-01T00:00:00Z" 7 90 ["display_name"])
          (println "Debug: Entering resourceAzureDevOpsPATRead"
            (UpdatePAT sampleEnv "old" "ci" "app_token" 90 false
              (sampleWorld [answer 200 "issued", answer 200 "listing"])).2)) ∧
    (resourceAzureDevOpsPATUpdate sampleEnv 2 (sampleData "2025-04-01T00:00:00Z" 7 90
        ["display_name"]) (sampleWorld [answer 200 "issued", answer 200 "listing"])).result.map
        (fun o => (o.diags, o.d.id, o.w.calls))
      = some (none, "old", [.updatePAT "old" "ci" "app_token" 90 false, .getPAT "old"]) := by
  refine ⟨by decide, by decide, ?_, ?_, by decide⟩
  · obtain ⟨r, w1, hr, hw1, hcalls, _, _, _⟩ := update_rotates_once sampleEnv 0
      (sampleData "2025-04-01T00:00:00Z" 7 90 ["display_name"])
      (sampleWorld [answer 200 "issued", answer 200 "listing"]) (90 * day)
      (by decide) rfl rfl (by decide) (by decide) (by decide) (by decide)
    subst hr
    exact hcalls
  · obtain ⟨r, w1, hr, hw1, _, _, hok, _⟩ := update_rotates_once sampleEnv 0
      (sampleData "2025-04-01T00:00:00Z" 7 90 ["display_name"])
      (sampleWorld [answer 200 "issued", answer 200 "listing"]) (90 * day)
      (by decide) rfl rfl (by decide) (by decide) (by decide) (by decide)
    subst hr hw1
    exact (hok sampleIssued rfl).1

/-! ## C8: a failing Revoke -/

/-- C8.  In `Update`: let the stored expiry parse, let `c` be the renewal condition evaluated
on the clock, and let the renewal branch or the `all_organization` branch be taken (`c` holds,
or `HasChange("all_organization")`).  If `RevokePAT`, called after the line of that branch is
printed, returns an error, then `Update` returns that error, the data are exactly the data on
entry, and the only client method entered is that `RevokePAT`: no `CreatePAT`, and on the wire
nothing but the one DELETE (or nothing, if the request could not be built).  In `Delete`: if
`RevokePAT` returns an error, `Delete` returns that error with the data untouched, identity
included, and the same bound on the calls. -/
theorem revoke_failure_is_fail_safe (env : Env) (fuel : Nat) (d : ResourceData) (w : World) :
    (∀ validTo err c line r,
      env.parseRFC3339 d.valid_to = .ok validTo →
      c = updateRenewalDue validTo (renewalThreshold validTo d.renew_before_days) w →
      (c.1 = true ∨ d.HasChange "all_organization" = true) →
      line = (if c.1 = true then "PAT is expired or within the renew window. Recreating..."
        else "allOrgs field has changed. Recreating the PAT.") →
      r = RevokePAT env d.id (println line c.2) →
      r.1 = some err →
        resourceAzureDevOpsPATUpdate env (fuel + 1) d w = .done ⟨some (.fromErr err), d, r.2⟩ ∧
        r.2.calls = w.calls ++ [.revokePAT d.id] ∧
        (r.2.sent = w.sent ∨ r.2.sent = w.sent ++ [.delete d.id])) ∧
    (∀ err r,
      r = RevokePAT env d.id w →
      r.1 = some err →
        resourceAzureDevOpsPATDelete env d w = ⟨some (.fromErr err), d, r.2⟩ ∧
        r.2.calls = w.calls ++ [.revokePAT d.id] ∧
        (r.2.sent = w.sent ∨ r.2.sent = w.sent ++ [.delete d.id])) := by
  constructor
  · intro validTo err c line r hparse hc hbranch hline hr herr
    subst hr hline hc
    refine ⟨?_, ?_, ?_⟩
    · rw [resourceAzureDevOpsPATUpdate]
      simp only [hparse]
      by_cases hdue : (updateRenewalDue validTo (renewalThreshold validTo d.renew_before_days)
          w).1 = true
      · simp only [hdue, if_true] at herr ⊢
        simp only [herr]
      · have hchg : d.HasChange "all_organization" = true := by
          rcases hbranch with h | h
          · exact absurd h hdue
          · exact h
        simp only [hdue, if_false, hchg, if_true] at herr ⊢
        simp only [Bool.false_eq_true, if_false] at herr ⊢
        simp only [herr]
    · rw [RevokePAT_calls]
      simp [updateRenewalDue]
    · rcases RevokePAT_sent env d.id (println (if (updateRenewalDue validTo
          (renewalThreshold validTo d.renew_before_days) w).1 = true
          then "PAT is expired or within the renew window. Recreating..."
          else "allOrgs field has changed. Recreating the PAT.")
          (updateRenewalDue validTo (renewalThreshold validTo d.renew_before_days) w).2)
        with h | h
      · left; rw [h.1]; simp [updateRenewalDue]
      · right; rw [h.1]; simp [updateRenewalDue]
  · intro err r hr herr
    subst hr
    refine ⟨?_, RevokePAT_calls .., ?_⟩
    · unfold resourceAzureDevOpsPATDelete
      simp only [herr]
    · rcases RevokePAT_sent env d.id w with h | h
      · exact Or.inl h.1
      · exact Or.inr h.1

/-- C8 at a sample: the remote answers the DELETE with 401, in `Update` with renewal due
(expiry in 5 days, window of 7) and in `Delete`. -/
theorem revoke_failure_is_fail_safe_witness :
    resourceAzureDevOpsPATUpdate sampleEnv 1 (sampleData "2025-01-06T00:00:00Z" 7 90 [])
        (sampleWorld [answer 401 "", answer 200 "issued"])
      = .done ⟨some (.fromErr .unauthorized), sampleData "2025-01-06T00:00:00Z" 7 90 [],
          (RevokePAT sampleEnv "old"
            (println "PAT is expired or within the renew window. Recreating..."
              (sampleWorld [answer 401 "", answer 200 "issued"]))).2⟩ ∧
    resourceAzureDevOpsPATDelete sampleEnv (sampleData "2025-01-06T00:00:00Z" 7 90 [])
        (sampleWorld [answer 401 "", answer 200 "issued"])
      = ⟨some (.fromErr .unauthorized), sampleData "2025-01-06T00:00:00Z" 7 90 [],
          (RevokePAT sampleEnv "old" (sampleWorld [answer 401 "", answer 200 "issued"])).2⟩ ∧
    (RevokePAT sampleEnv "old" (sampleWorld [answer 401 "", answer 200 "issued"])).2.calls
      = [] ++ [.revokePAT "old"] :=
  ⟨((revoke_failure_is_fail_safe sampleEnv 0 (sampleData "2025-01-06T00:00:00Z" 7 90 [])
      (sampleWorld [answer 401 "", answer 200 "issued"])).1 (5 * day) .unauthorized
      _ _ _ rfl rfl (Or.inl (by decide)) rfl rfl (by decide)).1,
   ((revoke_failure_is_fail_safe sampleEnv 0 (sampleData "2025-01-06T00:00:00Z" 7 90 [])
      (sampleWorld [answer 401 "", answer 200 "issued"])).2 .unauthorized _ rfl (by decide)).1,
   ((revoke_failure_is_fail_safe sampleEnv 0 (sampleData "2025-01-06T00:00:00Z" 7 90 [])
      (sampleWorld [answer 401 "", answer 200 "issued"])).2 .unauthorized _ rfl (by decide)).2.1⟩

/-! ## C9: Delete on an absent resource -/

/-- C9, counterexample.  `Delete` on data whose identity is empty enters `RevokePAT` with the
empty identity and puts a DELETE on the wire, using up the answer of the remote. -/
theorem delete_absent_counterexample :
    (sampleConfig 7 90).id = "" ∧
    (resourceAzureDevOpsPATDelete sampleEnv (sampleConfig 7 90)
        (sampleWorld [answer 204 ""])).w.calls = [.revokePAT ""] ∧
    (resourceAzureDevOpsPATDelete sampleEnv (sampleConfig 7 90)
        (sampleWorld [answer 204 ""])).w.sent = [.delete ""] ∧
    (resourceAzureDevOpsPATDelete sampleEnv (sampleConfig 7 90)
        (sampleWorld [answer 204 ""])).w.script = [] := by
  decide

/-- C9, amended.  For data whose identity is empty, `Delete` enters exactly one client method,
`RevokePAT` with the empty identity; when that request can be built it puts exactly one
request on the wire, the DELETE with the empty `authorizationId`, otherwise none; and whatever
the remote answers the data are left as they were, the identity still empty. -/
theorem delete_absent_revokes_once (env : Env) (d : ResourceData) (w : World)
    (hid : d.id = "") :
    (resourceAzureDevOpsPATDelete env d w).w.calls = w.calls ++ [.revokePAT ""] ∧
    (env.newRequestErr (.delete "") = none →
      (resourceAzureDevOpsPATDelete env d w).w.sent = w.sent ++ [.delete ""]) ∧
    (env.newRequestErr (.delete "") ≠ none →
      (resourceAzureDevOpsPATDelete env d w).w.sent = w.sent) ∧
    (resourceAzureDevOpsPATDelete env d w).d = d ∧
    (resourceAzureDevOpsPATDelete env d w).d.id = "" := by
  have hw : (resourceAzureDevOpsPATDelete env d w).w = (RevokePAT env "" w).2 := by
    unfold resourceAzureDevOpsPATDelete
    rw [hid]
    dsimp only
    split <;> rfl
  have hd : (resourceAzureDevOpsPATDelete env d w).d = d := by
    unfold resourceAzureDevOpsPATDelete
    dsimp only
    split
    · rfl
    · cases d; simp_all
  refine ⟨?_, ?_, ?_, hd, ?_⟩
  · rw [hw, RevokePAT_calls]
  · intro hb
    rw [hw]
    rcases RevokePAT_sent env "" w with h | h
    · exact absurd hb h.2
    · exact h.1
  · intro hb
    rw [hw]
    rcases RevokePAT_sent env "" w with h | h
    · exact h.1
    · exact absurd h.2 hb
  · rw [hd, hid]

/-- C9, the amended statement at a sample. -/
theorem delete_absent_revokes_once_witness :
    (sampleConfig 7 90).id = "" ∧
    (resourceAzureDevOpsPATDelete sampleEnv (sampleConfig 7 90)
        (sampleWorld [answer 404 ""])).w.calls = [] ++ [.revokePAT ""] ∧
    (resourceAzureDevOpsPATDelete sampleEnv (sampleConfig 7 90)
        (sampleWorld [answer 404 ""])).d.id = "" :=
  ⟨rfl,
    (delete_absent_revokes_once sampleEnv (sampleConfig 7 90) (sampleWorld [answer 404 ""])
      rfl).1,
    (delete_absent_revokes_once sampleEnv (sampleConfig 7 90) (sampleWorld [answer 404 ""])
      rfl).2.2.2.2⟩

/-! ## C10: the bounded scan of `GetPAT` -/

/-- C10.  `GetPAT` puts at most three requests on the wire, all of them the GET of the
listing.  When the request can be built: it returns a token `pat` iff for some `k < 3` the
answers before `k` are misses (status 200, a well-formed listing without the identity) and
answer `k` is a hit whose first listed token of the requested identity is `pat`; a status other
than 200 at attempt `k`, after misses only, ends the call with the status error, which is not
the not-found error, after `k + 1` requests; and it returns the not-found error iff the three
answers are all misses. -/
theorem getPAT_bounded_scan (env : Env) (authorizationID : String) (w : World) :
    (∃ k, k ≤ 3 ∧
      (GetPAT env authorizationID w).2.sent = w.sent ++ List.replicate k .get) ∧
    (GetPAT env authorizationID w).2.sent.length ≤ w.sent.length + 3 ∧
    (env.newRequestErr .get = none →
      (∀ pat, (GetPAT env authorizationID w).1 = .ok pat ↔
        ∃ k, k < 3 ∧ (∀ j, j < k → MissAt env authorizationID w j) ∧
          HitAt env authorizationID w k pat) ∧
      (∀ k resp, k < 3 → (∀ j, j < k → MissAt env authorizationID w j) →
        answerAt w k = some (.response resp) → resp.StatusCode ≠ 200 →
          (GetPAT env authorizationID w).1 = .error (.retrieveStatus resp.StatusCode) ∧
          (GetPAT env authorizationID w).1 ≠ .error (.notFoundAfterRetries authorizationID) ∧
          (GetPAT env authorizationID w).2.sent = w.sent ++ List.replicate (k + 1) .get) ∧
      ((GetPAT env authorizationID w).1 = .error (.notFoundAfterRetries authorizationID) ↔
        ∀ j, j < 3 → MissAt env authorizationID w j)) := by
  have hsent := getPATLoop_sent env authorizationID 3 (enter (.getPAT authorizationID) w)
  refine ⟨hsent, ?_, ?_⟩
  · obtain ⟨k, hk, hs⟩ := hsent
    unfold GetPAT maxRetries
    rw [hs]
    simp
    omega
  · intro hbuild
    obtain ⟨h1, h2, h3⟩ := getPATLoop_spec env authorizationID hbuild 3
      (enter (.getPAT authorizationID) w)
    refine ⟨h1, ?_, h3⟩
    intro k resp hk hmiss ha hs
    obtain ⟨e1, e2⟩ := h2 k resp hk hmiss ha hs
    refine ⟨e1, ?_, e2⟩
    unfold GetPAT maxRetries
    rw [e1]
    simp

/-- C10 at a sample: the first listing is empty, the second holds the token "new". -/
theorem getPAT_bounded_scan_witness :
    (GetPAT sampleEnv "new" (sampleWorld [answer 200 "nothing", answer 200 "listing"])).1
      = .ok sampleIssued ∧
    ((GetPAT sampleEnv "new" (sampleWorld [answer 200 "nothing", answer 200 "listing"])).1
        = .ok sampleIssued ↔
      ∃ k, k < 3 ∧
        (∀ j, j < k → MissAt sampleEnv "new"
          (sampleWorld [answer 200 "nothing", answer 200 "listing"]) j) ∧
        HitAt sampleEnv "new" (sampleWorld [answer 200 "nothing", answer 200 "listing"]) k
          sampleIssued) ∧
    (GetPAT sampleEnv "new"
        (sampleWorld [answer 200 "nothing", answer 200 "listing"])).2.sent.length ≤ 0 + 3 :=
  ⟨rfl,
    ((getPAT_bounded_scan sampleEnv "new"
      (sampleWorld [answer 200 "nothing", answer 200 "listing"])).2.2 rfl).1 sampleIssued,
    (getPAT_bounded_scan sampleEnv "new"
      (sampleWorld [answer 200 "nothing", answer 200 "listing"])).2.1⟩

/-! ## C11: Update revokes before the configuration is checked -/

/-- A `RevokePAT` that returns no error has put its DELETE on the wire. -/
theorem RevokePAT_none_sent (env : Env) (authorizationID : String) (w : World)
    (h : (RevokePAT env authorizationID w).1 = none) :
    (RevokePAT env authorizationID w).2.sent = w.sent ++ [.delete authorizationID] := by
  rcases RevokePAT_sent env authorizationID w with hs | hs
  · exfalso
    unfold RevokePAT at h
    dsimp only at h
    cases hb : env.newRequestErr (.delete authorizationID) with
    | none => exact hs.2 hb
    | some msg =>
      rw [hb] at h
      simp at h
  · exact hs.1

/-- C11.  Let the stored expiry parse to `validTo`, let the renewal condition of `Update` hold
on its reading `currentTime` of the clock (`currentTime` after the threshold
`validTo.Add(-renewBeforeDays*24h)` or after `validTo`), let
`renew_before_days > expiration_days`, and let `RevokePAT` of the stored identity return no
error.  Then `Update`, with any budget of at least two calls, returns the configuration error
of `Create` (`renew_before_days` cannot be greater than `expiration_days`); the resource data
are exactly the data on entry, identity included; the only client method entered is
`RevokePAT` of the stored identity, the only request on the wire is its DELETE, and no
`CreatePAT` is entered.  The threshold is `validTo - renewBeforeDays*24h` whenever
`renewBeforeDays` is between -106751 and 106751. -/
theorem update_revokes_before_validating (env : Env) (fuel : Nat) (d : ResourceData)
    (w : World) (validTo : Int)
    (hparse : env.parseRFC3339 d.valid_to = .ok validTo)
    (hdue : renewalThreshold validTo d.renew_before_days < (timeNow w).1 ∨
      validTo < (timeNow w).1)
    (hcfg : d.expiration_days < d.renew_before_days)
    (hrev : (RevokePAT env d.id
      (println "PAT is expired or within the renew window. Recreating..."
        (timeNow w).2)).1 = none) :
    ∃ out, resourceAzureDevOpsPATUpdate env (fuel + 2) d w = .done out ∧
      out.diags = some (.renewExceedsExpiration d.renew_before_days d.expiration_days) ∧
      out.d = d ∧ out.d.id = d.id ∧
      out.w = (RevokePAT env d.id
        (println "PAT is expired or within the renew window. Recreating..."
          (timeNow w).2)).2 ∧
      out.w.calls = w.calls ++ [.revokePAT d.id] ∧
      out.w.sent = w.sent ++ [.delete d.id] ∧
      (-106751 ≤ d.renew_before_days ∧ d.renew_before_days ≤ 106751 →
        renewalThreshold validTo d.renew_before_days
          = validTo - d.renew_before_days * 24 * timeHour) := by
  have hc : updateRenewalDue validTo (renewalThreshold validTo d.renew_before_days) w
      = (true, (timeNow w).2) := by
    unfold updateRenewalDue
    rcases hdue with h | h <;> simp [h]
  refine ⟨⟨some (.renewExceedsExpiration d.renew_before_days d.expiration_days), d,
    (RevokePAT env d.id (println "PAT is expired or within the renew window. Recreating..."
      (timeNow w).2)).2⟩, ?_, rfl, rfl, rfl, rfl, ?_, ?_,
    fun h => renewalThreshold_of_range _ _ h.1 h.2⟩
  · rw [resourceAzureDevOpsPATUpdate]
    simp only [hparse, hc, if_true, hrev]
    exact create_rejects_renew_above_expiration env fuel d _ hcfg
  · simp [RevokePAT_calls]
  · rw [RevokePAT_none_sent _ _ _ hrev]
    simp

/-- C11 at a sample: stored expiry in 5 days, `renew_before_days = 7`, `expiration_days = 5`,
the remote answering the DELETE with 204. -/
theorem update_revokes_before_validating_witness :
    sampleEnv.parseRFC3339 (sampleData "2025-01-06T00:00:00Z" 7 5 []).valid_to
      = .ok (5 * day) ∧
    (renewalThreshold (5 * day) 7 < (timeNow (sampleWorld [answer 204 ""])).1 ∨
      5 * day < (timeNow (sampleWorld [answer 204 ""])).1) ∧
    (5 : Int) < 7 ∧
    ∃ out, resourceAzureDevOpsPATUpdate sampleEnv 2 (sampleData "2025-01-06T00:00:00Z" 7 5 [])
        (sampleWorld [answer 204 ""]) = .done out ∧
      out.diags = some (.renewExceedsExpiration 7 5) ∧
      out.d = sampleData "2025-01-06T00:00:00Z" 7 5 [] ∧ out.d.id = "old" ∧
      out.w = (RevokePAT sampleEnv "old"
        (println "PAT is expired or within the renew window. Recreating..."
          (timeNow (sampleWorld [answer 204 ""])).2)).2 ∧
      out.w.calls = [] ++ [.revokePAT "old"] ∧
      out.w.sent = [] ++ [.delete "old"] ∧
      (-106751 ≤ (7 : Int) ∧ (7 : Int) ≤ 106751 →
        renewalThreshold (5 * day) 7 = 5 * day - 7 * 24 * timeHour) :=
  ⟨rfl, Or.inl (by decide), by decide,
    update_revokes_before_validating sampleEnv 0 (sampleData "2025-01-06T00:00:00Z" 7 5 [])
      (sampleWorld [answer 204 ""]) (5 * day) rfl (Or.inl (by decide)) (by decide)
      (by decide)⟩

end AzureDevOpsPAT
